import Mathlib

/-!
Verification development for the cors-anywhere proxy core
(src/lib/cors-anywhere.ts).

Strings of the JavaScript source are embedded as `List Char`; header
collections (JavaScript plain objects used as string-keyed maps with
insertion order) are embedded as association lists in insertion order,
where setting an existing key overwrites in place and setting a fresh
key appends at the end, exactly as JavaScript object assignment behaves
for string keys.
-/

namespace CorsAnywhere

/-- Embedding of JavaScript strings. -/
abbrev Str := List Char

/-- Convert a Lean string literal to the embedded string type. -/
def str (s : String) : Str := s.data

/-- ASCII lower-casing of a single character, as used by the
case-insensitive (`i`) flag of the regular expressions in the source
on their ASCII pattern characters. -/
def toLowerChar (c : Char) : Char :=
  match c with
  | 'A' => 'a' | 'B' => 'b' | 'C' => 'c' | 'D' => 'd' | 'E' => 'e'
  | 'F' => 'f' | 'G' => 'g' | 'H' => 'h' | 'I' => 'i' | 'J' => 'j'
  | 'K' => 'k' | 'L' => 'l' | 'M' => 'm' | 'N' => 'n' | 'O' => 'o'
  | 'P' => 'p' | 'Q' => 'q' | 'R' => 'r' | 'S' => 's' | 'T' => 't'
  | 'U' => 'u' | 'V' => 'v' | 'W' => 'w' | 'X' => 'x' | 'Y' => 'y'
  | 'Z' => 'z' | c => c

/-- Exact prefix test on embedded strings (JavaScript
`s.lastIndexOf(p, 0) === 0`, and anchored case-sensitive regexes). -/
def listPre : Str → Str → Bool
  | [], _ => true
  | _ :: _, [] => false
  | p :: ps, c :: cs => (p == c) && listPre ps cs

/-- Case-insensitive prefix test (anchored regexes with the `i` flag). -/
def ciHasPre : Str → Str → Bool
  | [], _ => true
  | _ :: _, [] => false
  | p :: ps, c :: cs => (toLowerChar c == toLowerChar p) && ciHasPre ps cs

/-- Decimal digit character for a digit value (used to embed JavaScript
number-to-string conversion). -/
def digitChar (d : Nat) : Char :=
  match d with
  | 0 => '0' | 1 => '1' | 2 => '2' | 3 => '3' | 4 => '4'
  | 5 => '5' | 6 => '6' | 7 => '7' | 8 => '8' | _ => '9'

/-- Recursive decimal printer used for reasoning (well-founded form). -/
def natDigitsR (n : Nat) : Str :=
  if _h : n < 10 then [digitChar n]
  else natDigitsR (n / 10) ++ [digitChar (n % 10)]
termination_by n
decreasing_by
  exact Nat.div_lt_self (by omega) (by omega)

/-- Fuel-driven decimal printer (structural recursion, so that concrete
instances evaluate inside the kernel). -/
def natDigitsCore : Nat → Nat → Str → Str
  | 0, _, acc => acc
  | fuel + 1, n, acc =>
    if n < 10 then digitChar n :: acc
    else natDigitsCore fuel (n / 10) (digitChar (n % 10) :: acc)

/-- Embedding of JavaScript number-to-string conversion for the natural
numbers the source stringifies (redirect counts, status codes,
`corsMaxAge`). -/
def natDigits (n : Nat) : Str := natDigitsCore (n + 1) n []

/-- Numeric value of a decimal digit character. -/
def digitVal (c : Char) : Nat := c.toNat - 48

/-- Numeric value of a digit string (JavaScript string-to-number coercion
on all-digit strings, as in `location.port > 65535`). -/
def digitsVal (s : Str) : Nat := s.foldl (fun a c => 10 * a + digitVal c) 0

/-- Header collections: association lists in insertion order. -/
abbrev Headers := List (Str × Str)

/-- Header lookup (JavaScript property read). -/
def getHeader : Headers → Str → Option Str
  | [], _ => none
  | p :: t, k => if p.1 = k then some p.2 else getHeader t k

/-- Key-presence test. -/
def hasKey (h : Headers) (k : Str) : Bool := (getHeader h k).isSome

/-- Header assignment: overwrite in place when the key exists, append
otherwise (JavaScript object assignment on string keys). -/
def setHeader : Headers → Str → Str → Headers
  | [], k, v => [(k, v)]
  | p :: t, k, v => if p.1 = k then (k, v) :: t else p :: setHeader t k v

/-- Header removal (JavaScript `delete`). -/
def delHeader (h : Headers) (k : Str) : Headers :=
  h.filter (fun p => !(p.1 == k))

/-- JavaScript truthiness filter on a looked-up string value: a missing
key and the empty string are both falsy. -/
def truthy (o : Option Str) : Option Str :=
  match o with
  | some v => if v = [] then none else some v
  | none => none

/-! ## The URL-splitting regular expression of `parseURL`

The source matches the requested URL against

`/^(?:(https?:)?\/\/)?(([^\/?]+?)(?::(\d{0,5})(?=[\/?]|$))?)([\/?][\S\s]*|$)/i`

(group 1: protocol, group 3: hostname, group 4: port, group 5: path).
The matcher below is the deterministic function computed by this regex
under JavaScript leftmost-backtracking semantics:

* the optional prefix group matches a case-insensitive scheme followed
  by `//`, or a bare `//`, or nothing — and a consumed prefix commits
  only when the remainder is nonempty and does not start with `/` or
  `?` (otherwise the lazy mandatory hostname cannot start, and the
  engine backtracks to the shorter prefix alternatives);
* the lazy hostname stops at the first position where the optional
  port group (a colon, at most five digits, and a lookahead requiring
  `/`, `?` or end of input) or the path alternative (`/`-or-`?` plus
  anything, or end of input) succeeds.  Splitting the remainder at its
  first `/`-or-`?` into `hostRaw ++ path`, the port group succeeds
  exactly at the last colon of `hostRaw` when at least one character
  precedes it and at most five characters, all digits, follow it;
  otherwise the whole of `hostRaw` is the hostname and no port binds.
-/

/-- Capture groups of the URL-splitting regex (group 2 `host`,
group 3 `hostname`, group 4 `port`, group 5 `path`). -/
structure RestParts where
  host : Str
  hostname : Str
  port : Option Str
  path : Str
deriving DecidableEq

/-- Full result of the regex: optional protocol capture plus the
host/port/path captures. -/
structure URegexMatch where
  protocol : Option Str
  parts : RestParts
deriving DecidableEq

/-- Split at the first `/` or `?` (the boundary between the host
portion and the path-or-query portion of the pattern). -/
def splitHostPath : Str → Str × Str
  | [] => ([], [])
  | c :: cs =>
    if c == '/' || c == '?' then ([], c :: cs)
    else
      let p := splitHostPath cs
      (c :: p.1, p.2)

/-- Split a string at its last colon, when it has one. -/
def lastColon (h : Str) : Option (Str × Str) :=
  let rev := h.reverse
  let afterRev := rev.takeWhile (fun c => !(c == ':'))
  match rev.dropWhile (fun c => !(c == ':')) with
  | ':' :: beforeRev => some (beforeRev.reverse, afterRev.reverse)
  | _ => none

/-- Host/port/path captures on the remainder after the optional
prefix group (see the module comment above for the derivation). -/
def restMatch (r : Str) : RestParts :=
  let hp := splitHostPath r
  match lastColon hp.1 with
  | some bp =>
    if bp.1 ≠ [] ∧ bp.2.all (fun c => c.isDigit) ∧ bp.2.length ≤ 5 then
      { host := hp.1, hostname := bp.1, port := some bp.2, path := hp.2 }
    else
      { host := hp.1, hostname := hp.1, port := none, path := hp.2 }
  | none => { host := hp.1, hostname := hp.1, port := none, path := hp.2 }

/-- Whether the mandatory part of the pattern can match a remainder:
it must be nonempty and not start with `/` or `?`. -/
def restOk (r : Str) : Bool :=
  match r with
  | [] => false
  | c :: _ => !(c == '/' || c == '?')

/-- Match attempt with the whole optional prefix group empty. -/
def bareMatch (s : Str) : Option URegexMatch :=
  if restOk s then some { protocol := none, parts := restMatch s } else none

/-- Match attempt with a bare `//` prefix (no scheme capture), falling
back to the empty prefix. -/
def slashesMatch (s : Str) : Option URegexMatch :=
  if listPre (str ("//")) s then
    let r := s.drop 2
    if restOk r then some { protocol := none, parts := restMatch r }
    else bareMatch s
  else bareMatch s

/-- The deterministic function computed by the URL-splitting regex:
`none` exactly when the regex does not match. -/
def uMatch (s : Str) : Option URegexMatch :=
  if ciHasPre (str ("https://")) s then
    let r := s.drop 8
    if restOk r then some { protocol := some (s.take 6), parts := restMatch r }
    else bareMatch s
  else if ciHasPre (str ("http://")) s then
    let r := s.drop 7
    if restOk r then some { protocol := some (s.take 5), parts := restMatch r }
    else bareMatch s
  else slashesMatch s

/-! ## Model of Node's legacy `url.parse`

`url.parse` is an external library function (Node's `url` module), so
it is modelled here rather than translated.  The model covers the
fragment exercised by the source: absolute `http:`/`https:` URLs as
produced or accepted by `parseURL` — scheme, optional userinfo at the
last `@` of the authority, hostname lower-casing, port split at a
trailing `:digits*` (an empty digit run strips the colon and leaves the
port unset, as in Node's `parseHost`), and the path+query remainder.
Bracketed IPv6 hosts, percent-encoding normalization, punycode and
invalid-hostname recovery are outside the modelled fragment.  `href`
is recomposed as Node does, with `/` standing in for an empty path. -/

/-- Parsed URL object (the fields of Node's legacy `Url` the source
reads: `protocol`, `hostname`, `port`, `host`, `path`, `href`). -/
structure TargetURL where
  protocol : Str
  auth : Option Str
  hostname : Str
  port : Option Str
  host : Str
  path : Str
  href : Str
deriving DecidableEq

/-- Split the part after `scheme://` into authority and path+query
(authority ends at the first `/`, `?` or `#`). -/
def splitAuthority (rest : Str) : Str × Str :=
  (rest.takeWhile (fun c => !(c == '/' || c == '?' || c == '#')),
   rest.dropWhile (fun c => !(c == '/' || c == '?' || c == '#')))

/-- Split an authority at its last `@` into userinfo and host. -/
def splitAuth (a : Str) : Option Str × Str :=
  let rev := a.reverse
  let hostRev := rev.takeWhile (fun c => !(c == '@'))
  match rev.dropWhile (fun c => !(c == '@')) with
  | '@' :: authRev => (some authRev.reverse, hostRev.reverse)
  | _ => (none, a)

/-- Split a host at a trailing `:digits*` into hostname and port
(Node's `parseHost`: an empty digit run strips the colon but leaves
the port unset). -/
def splitPort (h : Str) : Str × Option Str :=
  let rev := h.reverse
  let digs := rev.takeWhile (fun c => c.isDigit)
  match rev.dropWhile (fun c => c.isDigit) with
  | ':' :: restRev =>
    (restRev.reverse, if digs = [] then none else some digs.reverse)
  | _ => (h, none)

/-- Assemble the parsed URL once the scheme has been recognized. -/
def urlParseAfter (proto rest : Str) : TargetURL :=
  let ap := splitAuthority rest
  let au := splitAuth ap.1
  let hp := splitPort au.2
  let hostname := hp.1.map toLowerChar
  let host := hostname ++ (match hp.2 with | some p => ':' :: p | none => [])
  { protocol := proto
    auth := au.1
    hostname := hostname
    port := hp.2
    host := host
    path := ap.2
    href := proto ++ str ("//") ++
      (match au.1 with | some a => a ++ ['@'] | none => []) ++
      host ++ (if ap.2 = [] then str ("/") else ap.2) }

/-- Model of Node's legacy `url.parse` on the modelled fragment. -/
def urlParse (s : Str) : Option TargetURL :=
  if ciHasPre (str ("https://")) s then some (urlParseAfter (str ("https:")) (s.drop 8))
  else if ciHasPre (str ("http://")) s then some (urlParseAfter (str ("http:")) (s.drop 7))
  else none

/-- Final step of `parseURL`: run `url.parse` and reject an empty
hostname (`if (!parsed.hostname) return null`). -/
def finishParse (s : Str) : Option TargetURL :=
  match urlParse s with
  | none => none
  | some p => if p.hostname = [] then none else some p

/-- Embedding of the source's `parseURL` (src/lib/cors-anywhere.ts,
lines 247-274): match the URL-splitting regex; when the scheme is
absent, reject strings that nevertheless start with `http:`/`https:`
(case-insensitively), otherwise prepend `//` when missing and infer
the scheme (`https:` exactly when the captured port is the string
`443`); finally parse with `url.parse` and reject an empty hostname. -/
def parseURL (req_url : Str) : Option TargetURL :=
  match uMatch req_url with
  | none => none
  | some m =>
    if m.protocol.isSome then finishParse req_url
    else if ciHasPre (str ("http:")) req_url || ciHasPre (str ("https:")) req_url then
      none
    else
      let withSlashes := if listPre (str ("//")) req_url then req_url
        else str ("//") ++ req_url
      finishParse
        ((if m.parts.port = some (str ("443")) then str ("https:") else str ("http:"))
          ++ withSlashes)

/-! ## The CORS header injector and the request handler -/

/-- Incoming request as the handler sees it: method, raw URL, header
object (keys as delivered), and whether the connection is encrypted
(`req.connection.encrypted`). -/
structure RequestModel where
  method : Str
  url : Str
  headers : Headers
  encrypted : Bool
deriving DecidableEq

/-- Embedding of `withCORS` (src/lib/cors-anywhere.ts, lines 68-91).
Takes the response header set, the request method and header object and
the configured `corsMaxAge`; returns the updated response headers
together with the updated (mutated) request headers.  The
`Access-Control-Expose-Headers` value is the comma-join of the keys
present just before its own assignment. -/
def withCORS (headers : Headers) (reqMethod : Str) (reqHeaders : Headers)
    (corsMaxAge : Nat) : Headers × Headers :=
  let headers := setHeader headers (str ("Access-Control-Allow-Origin")) (str ("*"))
  let headers :=
    if reqMethod = str ("OPTIONS") ∧ corsMaxAge ≠ 0 then
      setHeader headers (str ("Access-Control-Max-Age")) (natDigits corsMaxAge)
    else headers
  let step1 : Headers × Headers :=
    match truthy (getHeader reqHeaders (str ("Access-Control-Request-Method"))) with
    | some v =>
      (setHeader headers (str ("Access-Control-Allow-Methods")) v,
       delHeader reqHeaders (str ("Access-Control-Request-Method")))
    | none => (headers, reqHeaders)
  let step2 : Headers × Headers :=
    match truthy (getHeader step1.2 (str ("Access-Control-Request-Headers"))) with
    | some v =>
      (setHeader step1.1 (str ("Access-Control-Allow-Headers")) v,
       delHeader step1.2 (str ("Access-Control-Request-Headers")))
    | none => step1
  (setHeader step2.1 (str ("Access-Control-Expose-Headers"))
     (List.intercalate (str (",")) (step2.1.map (fun p => p.1))),
   step2.2)

/-- Modelled from the spec: the hostname validity check.  The
repository's `regexp-top-level-domain` module and Node's
`net.isIPv4`/`net.isIPv6` are not under src/; per the spec, a hostname
is valid iff it matches a registrable domain-suffix pattern or is a
valid IPv4 or IPv6 literal.  The domain-suffix pattern is represented
by a sample of top-level domains. -/
def isValidHostName (hostname : Str) : Bool :=
  let tldOk := [str ("com"), str ("org"), str ("net"), str ("edu"),
    str ("gov"), str ("io"), str ("dev"), str ("nl")].any
    (fun t => (hostname.reverse.take (t.length + 1)) == (t.reverse ++ [ '.' ]))
  let ipv4 :=
    let parts := hostname.splitOn '.'
    parts.length == 4 && parts.all
      (fun p => p ≠ [] && p.all (fun c => c.isDigit) && digitsVal p ≤ 255)
  let ipv6 :=
    hostname.any (fun c => c == ':') &&
    hostname.all (fun c => c.isDigit || c == ':' ||
      [ 'a', 'b', 'c', 'd', 'e', 'f', 'A', 'B', 'C', 'D', 'E', 'F' ].any (fun d => d == c))
  tldOk || ipv4 || ipv6

/-- Server configuration after the option merge of `getHandler`
(lines 278-310): the defaults object overridden by caller options, with
`requireHeader` already normalized to a list of lower-cased names or
`none`. -/
structure Config where
  handleInitialRequest : Option (RequestModel → Option TargetURL → Bool)
  maxRedirects : Nat
  originBlacklist : List Str
  originWhitelist : List Str
  checkRateLimit : Option (Str → Str)
  redirectSameOrigin : Bool
  requireHeader : Option (List Str)
  removeHeaders : List Str
  setHeaders : List (Str × Str)
  corsMaxAge : Nat

/-- The default configuration values (lines 278-291). -/
def defaultConfig : Config :=
  { handleInitialRequest := none
    maxRedirects := 5
    originBlacklist := []
    originWhitelist := []
    checkRateLimit := none
    redirectSameOrigin := false
    requireHeader := none
    removeHeaders := []
    setHeaders := []
    corsMaxAge := 0 }

/-- Embedding of `hasRequiredHeaders` (lines 311-315). -/
def hasRequiredHeaders (c : Config) (headers : Headers) : Bool :=
  match c.requireHeader with
  | none => true
  | some names => names.any (fun n => hasKey headers n)

/-- The case-insensitive test `/^\/https?:\/[^/]/i` of the
missing-slash special case (line 342). -/
def missingSlashHit (u : Str) : Bool :=
  (match (if ciHasPre (str ("/http:/")) u then some (u.drop 7) else none) with
   | some (c :: _) => !(c == '/')
   | _ => false) ||
  (match (if ciHasPre (str ("/https:/")) u then some (u.drop 8) else none) with
   | some (c :: _) => !(c == '/')
   | _ => false)

/-- The case-sensitive test `/^\/https?:/` guarding the hostname
validity check (line 368). -/
def schemeSlashTest (u : Str) : Bool :=
  listPre (str ("/http:")) u || listPre (str ("/https:")) u

/-- The test `/^\s*https/` on `x-forwarded-proto` (line 412); a missing
header coerces to the string `undefined`, which fails the pattern. -/
def xfpTest (headers : Headers) : Bool :=
  match getHeader headers (str ("x-forwarded-proto")) with
  | some v => listPre (str ("https")) (v.dropWhile (fun c => c.isWhitespace))
  | none => false

/-- The numeric comparison `location.port > 65535` (line 361); the port
is a digit string or absent, and an absent port compares false. -/
def portTooLarge (loc : TargetURL) : Bool :=
  match loc.port with
  | some p => decide (digitsVal p > 65535)
  | none => false

/-- The same-origin redirect condition
`origin && location.href[origin.length] === '/' &&
location.href.lastIndexOf(origin, 0) === 0` (lines 401-402). -/
def sameOriginHit (origin href : Str) : Bool :=
  (match href.drop origin.length with
   | '/' :: _ => listPre origin href
   | _ => false)

/-- Outcome of one run of the request handler: a terminal response
written with `writeHead`/`end` (status, status text, headers, body),
delegation to the usage/help page, delegation to the
`handleInitialRequest` hook, or hand-off to `proxyRequest` with the
accumulated per-request state. -/
inductive HandlerResult where
  | response (status : Nat) (statusText : Str) (headers : Headers) (body : Str)
  | usage (headers : Headers)
  | claimedByHook
  | proxied (reqMethod reqUrl : Str) (reqHeaders : Headers) (location : TargetURL)
      (proxyBaseUrl : Str) (maxRedirects corsMaxAge : Nat)
deriving DecidableEq

/-- Embedding of the request handler returned by `getHandler`
(src/lib/cors-anywhere.ts, lines 317-427), with the validator chain in
source order: OPTIONS pre-flight, URL parse, initial-request hook,
missing-slash/usage, `iscorsneeded` probe, port bound, hostname
validity, required headers, origin blacklist, origin whitelist, rate
limit, same-origin redirect, then hand-off to the proxy. -/
def getHandler (c : Config) (req : RequestModel) : HandlerResult :=
  let wc := withCORS [] req.method req.headers c.corsMaxAge
  let cors_headers := wc.1
  let reqHeaders := wc.2
  if req.method = str ("OPTIONS") then
    .response 200 [] cors_headers []
  else
    let location := parseURL (req.url.drop 1)
    if (match c.handleInitialRequest with
        | some f => f req location
        | none => false) then .claimedByHook
    else
      match location with
      | none =>
        if missingSlashHit req.url then
          .response 400 (str ("Missing slash")) cors_headers
            (str ("The URL is invalid: two slashes are needed after the http(s):."))
        else .usage cors_headers
      | some loc =>
        if loc.host = str ("iscorsneeded") then
          .response 200 [] [(str ("Content-Type"), str ("text/plain"))] (str ("no"))
        else if portTooLarge loc then
          .response 400 (str ("Invalid port")) cors_headers
            (str ("Port number too large: ") ++ (loc.port.getD []))
        else if ¬ schemeSlashTest req.url ∧ ¬ isValidHostName loc.hostname then
          .response 404 (str ("Invalid host")) cors_headers
            (str ("Invalid host: ") ++ loc.hostname)
        else if ¬ hasRequiredHeaders c reqHeaders then
          .response 400 (str ("Header required")) cors_headers
            (str ("Missing required request header. Must specify one of: ") ++
              (match c.requireHeader with
               | some names => List.intercalate (str (",")) names
               | none => []))
        else
          let origin := (getHeader reqHeaders (str ("origin"))).getD []
          if origin ∈ c.originBlacklist then
            .response 403 (str ("Forbidden")) cors_headers
              (str ("The origin \x22") ++ origin ++
               str ("\x22 was blacklisted by the operator of this proxy."))
          else if c.originWhitelist ≠ [] ∧ origin ∉ c.originWhitelist then
            .response 403 (str ("Forbidden")) cors_headers
              (str ("The origin \x22") ++ origin ++
               str ("\x22 was not whitelisted by the operator of this proxy."))
          else
            let rl := match c.checkRateLimit with
              | some f => f origin
              | none => []
            if rl ≠ [] then
              .response 429 (str ("Too Many Requests")) cors_headers
                (str ("The origin \x22") ++ origin ++
                 str ("\x22 has sent too many requests.\x0a") ++ rl)
            else if c.redirectSameOrigin ∧ origin ≠ [] ∧ sameOriginHit origin loc.href then
              let ch := setHeader cors_headers (str ("consty")) (str ("origin"))
              let ch := setHeader ch (str ("cache-control")) (str ("private"))
              let ch := setHeader ch (str ("location")) loc.href
              .response 301 (str ("Please use a direct request")) ch []
            else
              let isHttps := req.encrypted || xfpTest reqHeaders
              let proxyBaseUrl :=
                (if isHttps then str ("https://") else str ("http://")) ++
                ((getHeader reqHeaders (str ("host"))).getD (str ("undefined")))
              let rh := c.removeHeaders.foldl (fun h k => delHeader h k) reqHeaders
              let rh := c.setHeaders.foldl (fun h kv => setHeader h kv.1 kv.2) rh
              .proxied req.method req.url rh loc proxyBaseUrl c.maxRedirects c.corsMaxAge

/-- Headers staged by `showUsage` (lines 22-42) before writing the
response: the usage path only adds a `content-type` to the headers it
was given (the file read itself is external I/O). -/
def showUsageHeaders (isHtml : Bool) (headers : Headers) : Headers :=
  setHeader headers (str ("content-type"))
    (if isHtml then str ("text/html") else str ("text/plain"))

/-- Embedding of the engine-error handler installed by `createServer`
(lines 457-479): when headers were already sent the response is merely
ended (`none`); otherwise all staged headers are removed and a 404 with
a single `Access-Control-Allow-Origin: *` header is written. -/
def proxyErrorHandler (headersSent : Bool) (err : Str) :
    Option (Nat × Headers × Str) :=
  if headersSent then none
  else some (404, [(str ("Access-Control-Allow-Origin"), str ("*"))],
    str ("Not found because of proxy error: ") ++ err)

/-! ## The redirect follower (`onProxyResponse`) and the exchange loop -/

/-- Modelled from Node's `url.resolve`, an external library function,
for the cases arising in redirect handling: an absolute `http:`/`https:`
location resolves to itself; a protocol-relative location takes the
base's scheme; a path-absolute location resolves against the base's
origin; any other location replaces the last path segment of the base.
The source only feeds its results onward as opaque strings. -/
def urlResolve (base loc : Str) : Str :=
  if ciHasPre (str ("http://")) loc || ciHasPre (str ("https://")) loc then loc
  else
    match urlParse base with
    | none => loc
    | some b =>
      if listPre (str ("//")) loc then b.protocol ++ loc
      else if listPre (str ("/")) loc then b.protocol ++ str ("//") ++ b.host ++ loc
      else
        b.protocol ++ str ("//") ++ b.host ++
          (b.path.reverse.dropWhile (fun c => !(c == '/'))).reverse ++ loc

/-- The per-request state `req.corsAnywhereRequestState`.  The
JavaScript `redirectCount_` starts out undefined; both `!undefined`
and `!0` are true and `undefined + 1 || 1` equals `0 + 1`, so it is
embedded as a natural number starting at `0`. -/
structure RequestState where
  location : TargetURL
  proxyBaseUrl : Str
  maxRedirects : Nat
  redirectCount_ : Nat
  corsMaxAge : Nat
deriving DecidableEq

/-- Mutable pieces of one client-facing exchange: the incoming request
object (method, url, headers), the per-request state, and the headers
staged on the client response via `res.setHeader`. -/
structure Exchange where
  reqMethod : Str
  reqUrl : Str
  reqHeaders : Headers
  state : RequestState
  resHeaders : Headers
deriving DecidableEq

/-- An upstream response: status code and header object (keys as
delivered by Node, i.e. lower-cased). -/
structure ProxyResponse where
  statusCode : Nat
  headers : Headers
deriving DecidableEq

/-- The relay-path mutations of `onProxyResponse` (lines 233-239):
strip `set-cookie`/`set-cookie2`, set `x-final-url` to the current
location, and apply `withCORS`; the response is then piped to the
client (`true`). -/
def relayFinish (e : Exchange) (pr : ProxyResponse) :
    Exchange × ProxyResponse × Bool :=
  let h := delHeader (delHeader pr.headers (str ("set-cookie"))) (str ("set-cookie2"))
  let h := setHeader h (str ("x-final-url")) e.state.location.href
  let wc := withCORS h e.reqMethod e.reqHeaders e.state.corsMaxAge
  ({ e with reqHeaders := wc.2 }, { pr with headers := wc.1 }, true)

/-- Embedding of `onProxyResponse` (src/lib/cors-anywhere.ts, lines
183-240).  Returns the updated exchange, the (possibly rewritten)
upstream response, and whether the engine should pipe it to the client;
`false` means the redirect was followed internally, in which case
`proxyRequest` re-issues the request (modelled by `runExchange` below;
its `req.url = location.path` assignment is applied here). -/
def onProxyResponse (e : Exchange) (pr : ProxyResponse) :
    Exchange × ProxyResponse × Bool :=
  let e := if e.state.redirectCount_ = 0 then
      { e with resHeaders := (setHeader e.resHeaders (str ("x-request-url"))
          e.state.location.href) }
    else e
  if pr.statusCode = 301 ∨ pr.statusCode = 302 ∨ pr.statusCode = 303 ∨
      pr.statusCode = 307 ∨ pr.statusCode = 308 then
    match truthy (getHeader pr.headers (str ("location"))) with
    | some loc0 =>
      let locationHeader := urlResolve e.state.location.href loc0
      match parseURL locationHeader with
      | some parsedLocation =>
        if pr.statusCode = 301 ∨ pr.statusCode = 302 ∨ pr.statusCode = 303 then
          let cnt := e.state.redirectCount_ + 1
          let e := { e with state := { e.state with redirectCount_ := cnt } }
          if cnt ≤ e.state.maxRedirects then
            ({ e with
                resHeaders := (setHeader e.resHeaders
                  (str ("X-CORS-Redirect-") ++ natDigits cnt)
                  (natDigits pr.statusCode ++ [ ' ' ] ++ locationHeader))
                reqMethod := str ("GET")
                reqHeaders := (delHeader
                  (setHeader e.reqHeaders (str ("content-length")) (str ("0")))
                  (str ("content-type")))
                reqUrl := parsedLocation.path
                state := { e.state with location := parsedLocation } },
             pr, false)
          else
            relayFinish e
              { pr with headers := (setHeader pr.headers (str ("location"))
                  (e.state.proxyBaseUrl ++ [ '/' ] ++ locationHeader)) }
        else
          relayFinish e
            { pr with headers := (setHeader pr.headers (str ("location"))
                (e.state.proxyBaseUrl ++ [ '/' ] ++ locationHeader)) }
      | none => relayFinish e pr
    | none => relayFinish e pr
  else relayFinish e pr

/-- One client-facing exchange against a queue of upstream responses:
each internally-followed redirect consumes the next upstream response;
the first relayed response is delivered to the client.  `none` means
the queue was exhausted while still following redirects. -/
def runExchange (e : Exchange) : List ProxyResponse → Option (Exchange × ProxyResponse)
  | [] => none
  | pr :: rest =>
    let r := onProxyResponse e pr
    if r.2.2 then some (r.1, r.2.1) else runExchange r.1 rest

/-! ## Basic lemmas: decimal printing and header operations -/

theorem digitVal_digitChar {d : Nat} (h : d < 10) : digitVal (digitChar d) = d := by
  interval_cases d <;> decide

theorem natDigitsCore_eq_natDigitsR :
    ∀ fuel n acc, n < fuel → natDigitsCore fuel n acc = natDigitsR n ++ acc := by
  intro fuel
  induction fuel with
  | zero => intro n acc h; omega
  | succ f ih =>
    intro n acc h
    rw [natDigitsCore, natDigitsR]
    by_cases h10 : n < 10
    · simp [h10]
    · have hdiv : n / 10 < n := Nat.div_lt_self (by omega) (by omega)
      simp only [if_neg h10, dif_neg h10]
      rw [ih (n / 10) _ (by omega), List.append_assoc]
      rfl

theorem natDigits_eq_natDigitsR (n : Nat) : natDigits n = natDigitsR n := by
  rw [natDigits, natDigitsCore_eq_natDigitsR (n + 1) n [] (by omega), List.append_nil]

theorem digitsVal_append_singleton (xs : Str) (c : Char) :
    digitsVal (xs ++ [c]) = 10 * digitsVal xs + digitVal c := by
  simp [digitsVal, List.foldl_append]

theorem digitsVal_natDigitsR : ∀ n, digitsVal (natDigitsR n) = n := by
  intro n
  induction n using Nat.strong_induction_on with
  | _ n ih =>
    rw [natDigitsR]
    by_cases h10 : n < 10
    · simp only [dif_pos h10]
      simp [digitsVal, digitVal_digitChar h10]
    · have hdiv : n / 10 < n := Nat.div_lt_self (by omega) (by omega)
      simp only [dif_neg h10]
      rw [digitsVal_append_singleton, ih (n / 10) hdiv,
        digitVal_digitChar (Nat.mod_lt n (by omega))]
      omega

theorem natDigits_injective {a b : Nat} (h : natDigits a = natDigits b) : a = b := by
  have ha := digitsVal_natDigitsR a
  have hb := digitsVal_natDigitsR b
  rw [natDigits_eq_natDigitsR, natDigits_eq_natDigitsR] at h
  rw [← ha, ← hb, h]

theorem getHeader_setHeader_self (h : Headers) (k v : Str) :
    getHeader (setHeader h k v) k = some v := by
  induction h with
  | nil => simp [setHeader, getHeader]
  | cons p t ih =>
    by_cases hk : p.1 = k
    · simp [setHeader, hk, getHeader]
    · simp [setHeader, hk, getHeader, ih]

theorem getHeader_setHeader_ne (h : Headers) {k k' : Str} (v : Str) (hne : k' ≠ k) :
    getHeader (setHeader h k v) k' = getHeader h k' := by
  have h1 : ¬ (k : Str) = k' := fun hh => hne hh.symm
  induction h with
  | nil => simp [setHeader, getHeader, h1]
  | cons p t ih =>
    by_cases hk : p.1 = k
    · have h2 : ¬ p.1 = k' := by rw [hk]; exact h1
      simp [setHeader, hk, getHeader, h1, h2]
    · simp [setHeader, hk, getHeader, ih]

theorem delHeader_cons (p : Str × Str) (t : Headers) (k : Str) :
    delHeader (p :: t) k =
      if p.1 = k then delHeader t k else p :: delHeader t k := by
  by_cases hk : p.1 = k <;> simp [delHeader, List.filter_cons, hk]

theorem getHeader_delHeader_self (h : Headers) (k : Str) :
    getHeader (delHeader h k) k = none := by
  induction h with
  | nil => simp [delHeader, getHeader]
  | cons p t ih =>
    rw [delHeader_cons]
    by_cases hk : p.1 = k
    · simpa [hk] using ih
    · simpa [hk, getHeader] using ih

theorem getHeader_delHeader_ne (h : Headers) {k k' : Str} (hne : k' ≠ k) :
    getHeader (delHeader h k) k' = getHeader h k' := by
  have h1 : ¬ (k : Str) = k' := fun hh => hne hh.symm
  induction h with
  | nil => simp [delHeader, getHeader]
  | cons p t ih =>
    rw [delHeader_cons]
    by_cases hk : p.1 = k
    · simpa [hk, getHeader, h1] using ih
    · simp [hk, getHeader, ih]

theorem setHeader_eq_append {h : Headers} {k : Str} (habs : getHeader h k = none)
    (v : Str) : setHeader h k v = h ++ [(k, v)] := by
  induction h with
  | nil => simp [setHeader]
  | cons p t ih =>
    by_cases hk : p.1 = k
    · simp [getHeader, hk] at habs
    · simp only [getHeader, if_neg hk] at habs
      simp [setHeader, hk, ih habs]

theorem getHeader_append_right {h : Headers} {k : Str} (habs : getHeader h k = none)
    (rest : Headers) : getHeader (h ++ rest) k = getHeader rest k := by
  induction h with
  | nil => simp
  | cons p t ih =>
    by_cases hk : p.1 = k
    · simp [getHeader, hk] at habs
    · simp only [getHeader, if_neg hk] at habs
      simpa [getHeader, hk] using ih habs

theorem getHeader_eq_none_iff (h : Headers) (k : Str) :
    getHeader h k = none ↔ k ∉ h.map (fun p => p.1) := by
  induction h with
  | nil => simp [getHeader]
  | cons p t ih =>
    by_cases hk : p.1 = k
    · simp [getHeader, hk]
    · have h2 : ¬ k = p.1 := fun hh => hk hh.symm
      simp [getHeader, hk, ih, h2]

/-! ## Lemmas about `withCORS` -/

/-- The response headers produced by `withCORS` just before its final
`Access-Control-Expose-Headers` assignment. -/
def withCORSPre (h : Headers) (m : Str) (rh : Headers) (a : Nat) : Headers :=
  let h1 := setHeader h (str ("Access-Control-Allow-Origin")) (str ("*"))
  let h2 := if m = str ("OPTIONS") ∧ a ≠ 0 then
      setHeader h1 (str ("Access-Control-Max-Age")) (natDigits a)
    else h1
  let h3 := match truthy (getHeader rh (str ("Access-Control-Request-Method"))) with
    | some v => setHeader h2 (str ("Access-Control-Allow-Methods")) v
    | none => h2
  match truthy (getHeader
      (match truthy (getHeader rh (str ("Access-Control-Request-Method"))) with
       | some _ => delHeader rh (str ("Access-Control-Request-Method"))
       | none => rh) (str ("Access-Control-Request-Headers"))) with
  | some v => setHeader h3 (str ("Access-Control-Allow-Headers")) v
  | none => h3

theorem withCORS_fst (h : Headers) (m : Str) (rh : Headers) (a : Nat) :
    (withCORS h m rh a).1 =
      setHeader (withCORSPre h m rh a) (str ("Access-Control-Expose-Headers"))
        (List.intercalate (str (",")) ((withCORSPre h m rh a).map (fun p => p.1))) := by
  unfold withCORS withCORSPre
  cases hm : truthy (getHeader rh (str ("Access-Control-Request-Method"))) with
  | none =>
    cases hh : truthy (getHeader rh (str ("Access-Control-Request-Headers"))) <;>
      simp [hm, hh]
  | some v =>
    cases hh : truthy (getHeader (delHeader rh (str ("Access-Control-Request-Method")))
        (str ("Access-Control-Request-Headers"))) <;>
      simp [hm, hh]

theorem getHeader_withCORSPre_other (h : Headers) (m : Str) (rh : Headers) (a : Nat)
    {k : Str}
    (h1 : k ≠ str ("Access-Control-Allow-Origin"))
    (h2 : k ≠ str ("Access-Control-Max-Age"))
    (h3 : k ≠ str ("Access-Control-Allow-Methods"))
    (h4 : k ≠ str ("Access-Control-Allow-Headers")) :
    getHeader (withCORSPre h m rh a) k = getHeader h k := by
  unfold withCORSPre
  cases hm : truthy (getHeader rh (str ("Access-Control-Request-Method"))) with
  | none =>
    cases hh : truthy (getHeader rh (str ("Access-Control-Request-Headers"))) <;>
      by_cases hma : m = str ("OPTIONS") ∧ a ≠ 0 <;>
      simp [hm, hh, hma, getHeader_setHeader_ne _ _ h1, getHeader_setHeader_ne _ _ h2,
        getHeader_setHeader_ne _ _ h3, getHeader_setHeader_ne _ _ h4]
  | some v =>
    cases hh : truthy (getHeader (delHeader rh (str ("Access-Control-Request-Method")))
        (str ("Access-Control-Request-Headers"))) <;>
      by_cases hma : m = str ("OPTIONS") ∧ a ≠ 0 <;>
      simp [hm, hh, hma, getHeader_setHeader_ne _ _ h1, getHeader_setHeader_ne _ _ h2,
        getHeader_setHeader_ne _ _ h3, getHeader_setHeader_ne _ _ h4]

theorem getHeader_withCORS_other (h : Headers) (m : Str) (rh : Headers) (a : Nat)
    {k : Str}
    (h1 : k ≠ str ("Access-Control-Allow-Origin"))
    (h2 : k ≠ str ("Access-Control-Max-Age"))
    (h3 : k ≠ str ("Access-Control-Allow-Methods"))
    (h4 : k ≠ str ("Access-Control-Allow-Headers"))
    (h5 : k ≠ str ("Access-Control-Expose-Headers")) :
    getHeader (withCORS h m rh a).1 k = getHeader h k := by
  rw [withCORS_fst, getHeader_setHeader_ne _ _ h5,
    getHeader_withCORSPre_other h m rh a h1 h2 h3 h4]

theorem getHeader_withCORS_ACAO (h : Headers) (m : Str) (rh : Headers) (a : Nat) :
    getHeader (withCORS h m rh a).1 (str ("Access-Control-Allow-Origin")) =
      some (str ("*")) := by
  rw [withCORS_fst, getHeader_setHeader_ne _ _ (by decide)]
  unfold withCORSPre
  cases hm : truthy (getHeader rh (str ("Access-Control-Request-Method"))) with
  | none =>
    cases hh : truthy (getHeader rh (str ("Access-Control-Request-Headers"))) <;>
      by_cases hma : m = str ("OPTIONS") ∧ a ≠ 0 <;>
      simp [hm, hh, hma, getHeader_setHeader_ne _ _ (by decide : (str ("Access-Control-Allow-Origin")) ≠ str ("Access-Control-Max-Age")), getHeader_setHeader_ne _ _ (by decide : (str ("Access-Control-Allow-Origin")) ≠ str ("Access-Control-Allow-Methods")), getHeader_setHeader_ne _ _ (by decide : (str ("Access-Control-Allow-Origin")) ≠ str ("Access-Control-Allow-Headers")), getHeader_setHeader_self]
  | some v =>
    cases hh : truthy (getHeader (delHeader rh (str ("Access-Control-Request-Method")))
        (str ("Access-Control-Request-Headers"))) <;>
      by_cases hma : m = str ("OPTIONS") ∧ a ≠ 0 <;>
      simp [hm, hh, hma, getHeader_setHeader_ne _ _ (by decide : (str ("Access-Control-Allow-Origin")) ≠ str ("Access-Control-Max-Age")), getHeader_setHeader_ne _ _ (by decide : (str ("Access-Control-Allow-Origin")) ≠ str ("Access-Control-Allow-Methods")), getHeader_setHeader_ne _ _ (by decide : (str ("Access-Control-Allow-Origin")) ≠ str ("Access-Control-Allow-Headers")), getHeader_setHeader_self]

theorem withCORS_echo_methods (h : Headers) (m : Str) (rh : Headers) (a : Nat)
    {v : Str} (hv : truthy (getHeader rh (str ("Access-Control-Request-Method"))) = some v) :
    getHeader (withCORS h m rh a).1 (str ("Access-Control-Allow-Methods")) = some v := by
  rw [withCORS_fst, getHeader_setHeader_ne _ _ (by decide)]
  unfold withCORSPre
  rw [hv]
  cases hh : truthy (getHeader (delHeader rh (str ("Access-Control-Request-Method")))
      (str ("Access-Control-Request-Headers"))) <;>
    simp [hh, getHeader_setHeader_self,
      getHeader_setHeader_ne _ _ (by decide : (str ("Access-Control-Allow-Methods")) ≠ str ("Access-Control-Allow-Headers"))]

theorem withCORS_consumes_arm (h : Headers) (m : Str) (rh : Headers) (a : Nat)
    {v : Str} (hv : truthy (getHeader rh (str ("Access-Control-Request-Method"))) = some v) :
    getHeader (withCORS h m rh a).2 (str ("Access-Control-Request-Method")) = none := by
  unfold withCORS
  rw [hv]
  cases hh : truthy (getHeader (delHeader rh (str ("Access-Control-Request-Method")))
      (str ("Access-Control-Request-Headers"))) <;>
    simp [hh, getHeader_delHeader_self,
      getHeader_delHeader_ne _ (by decide : (str ("Access-Control-Request-Method")) ≠ str ("Access-Control-Request-Headers")),
      getHeader_delHeader_self]

theorem withCORS_echo_headers (h : Headers) (m : Str) (rh : Headers) (a : Nat)
    {w : Str} (hw : truthy (getHeader rh (str ("Access-Control-Request-Headers"))) = some w) :
    getHeader (withCORS h m rh a).1 (str ("Access-Control-Allow-Headers")) = some w := by
  rw [withCORS_fst, getHeader_setHeader_ne _ _ (by decide)]
  unfold withCORSPre
  cases hm : truthy (getHeader rh (str ("Access-Control-Request-Method"))) with
  | none => simp [hm, hw, getHeader_setHeader_self]
  | some v =>
    have hdel : getHeader (delHeader rh (str ("Access-Control-Request-Method")))
        (str ("Access-Control-Request-Headers")) =
        getHeader rh (str ("Access-Control-Request-Headers")) :=
      getHeader_delHeader_ne _ (by decide)
    simp [hm, hdel, hw, getHeader_setHeader_self]

theorem withCORS_consumes_arh (h : Headers) (m : Str) (rh : Headers) (a : Nat)
    {w : Str} (hw : truthy (getHeader rh (str ("Access-Control-Request-Headers"))) = some w) :
    getHeader (withCORS h m rh a).2 (str ("Access-Control-Request-Headers")) = none := by
  unfold withCORS
  cases hm : truthy (getHeader rh (str ("Access-Control-Request-Method"))) with
  | none => simp [hm, hw, getHeader_delHeader_self]
  | some v =>
    have hdel : getHeader (delHeader rh (str ("Access-Control-Request-Method")))
        (str ("Access-Control-Request-Headers")) =
        getHeader rh (str ("Access-Control-Request-Headers")) :=
      getHeader_delHeader_ne _ (by decide)
    simp [hm, hdel, hw, getHeader_delHeader_self]

/-- When `Access-Control-Expose-Headers` is absent from the incoming
header set, `withCORS` appends it last, and its value is the comma-join
of every other header name of the final set, in order. -/
theorem withCORS_expose (h : Headers) (m : Str) (rh : Headers) (a : Nat)
    (hfresh : getHeader h (str ("Access-Control-Expose-Headers")) = none) :
    getHeader (withCORS h m rh a).1 (str ("Access-Control-Expose-Headers")) =
      some (List.intercalate (str (","))
        (((withCORS h m rh a).1.map (fun p => p.1)).filter
          (fun k => !(k == str ("Access-Control-Expose-Headers"))))) := by
  have hpre : getHeader (withCORSPre h m rh a) (str ("Access-Control-Expose-Headers")) = none := by
    rw [getHeader_withCORSPre_other h m rh a (by decide) (by decide) (by decide) (by decide)]
    exact hfresh
  have happ := setHeader_eq_append hpre
    (List.intercalate (str (",")) ((withCORSPre h m rh a).map (fun p => p.1)))
  rw [withCORS_fst, happ]
  have hget : getHeader (withCORSPre h m rh a ++
      [(str ("Access-Control-Expose-Headers"),
        List.intercalate (str (",")) ((withCORSPre h m rh a).map (fun p => p.1)))])
      (str ("Access-Control-Expose-Headers")) =
      some (List.intercalate (str (",")) ((withCORSPre h m rh a).map (fun p => p.1))) := by
    rw [getHeader_append_right hpre]
    simp [getHeader]
  rw [hget]
  have hnotin : (str ("Access-Control-Expose-Headers")) ∉
      (withCORSPre h m rh a).map (fun p => p.1) :=
    (getHeader_eq_none_iff _ _).mp hpre
  have hfilter : ((withCORSPre h m rh a).map (fun p => p.1)).filter
      (fun k => !(k == str ("Access-Control-Expose-Headers"))) =
      (withCORSPre h m rh a).map (fun p => p.1) := by
    apply List.filter_eq_self.mpr
    intro x hx
    simp only [Bool.not_eq_true']
    exact beq_eq_false_iff_ne.mpr (fun hh => hnotin (hh ▸ hx))
  simp only [List.map_append, List.map_cons, List.map_nil, List.filter_append,
    hfilter]
  have : (List.filter (fun k => !(k == str ("Access-Control-Expose-Headers")))
      [str ("Access-Control-Expose-Headers")]) = [] := by decide
  rw [this, List.append_nil]

/-! ## Lemmas about the relay path of `onProxyResponse` -/

theorem relayFinish_relay (e : Exchange) (pr : ProxyResponse) :
    (relayFinish e pr).2.2 = true := rfl

theorem relayFinish_statusCode (e : Exchange) (pr : ProxyResponse) :
    (relayFinish e pr).2.1.statusCode = pr.statusCode := rfl

theorem relayFinish_state (e : Exchange) (pr : ProxyResponse) :
    (relayFinish e pr).1.state = e.state := rfl

theorem relayFinish_resHeaders (e : Exchange) (pr : ProxyResponse) :
    (relayFinish e pr).1.resHeaders = e.resHeaders := rfl

theorem relayFinish_no_cookie (e : Exchange) (pr : ProxyResponse) :
    getHeader (relayFinish e pr).2.1.headers (str ("set-cookie")) = none := by
  unfold relayFinish
  rw [getHeader_withCORS_other _ _ _ _ (by decide) (by decide) (by decide) (by decide)
    (by decide), getHeader_setHeader_ne _ _ (by decide),
    getHeader_delHeader_ne _ (by decide), getHeader_delHeader_self]

theorem relayFinish_no_cookie2 (e : Exchange) (pr : ProxyResponse) :
    getHeader (relayFinish e pr).2.1.headers (str ("set-cookie2")) = none := by
  unfold relayFinish
  rw [getHeader_withCORS_other _ _ _ _ (by decide) (by decide) (by decide) (by decide)
    (by decide), getHeader_setHeader_ne _ _ (by decide), getHeader_delHeader_self]

theorem relayFinish_ACAO (e : Exchange) (pr : ProxyResponse) :
    getHeader (relayFinish e pr).2.1.headers (str ("Access-Control-Allow-Origin")) =
      some (str ("*")) := by
  unfold relayFinish
  exact getHeader_withCORS_ACAO _ _ _ _

theorem relayFinish_other (e : Exchange) (pr : ProxyResponse) {k : Str}
    (n1 : k ≠ str ("set-cookie")) (n2 : k ≠ str ("set-cookie2"))
    (n3 : k ≠ str ("x-final-url"))
    (n4 : k ≠ str ("Access-Control-Allow-Origin"))
    (n5 : k ≠ str ("Access-Control-Max-Age"))
    (n6 : k ≠ str ("Access-Control-Allow-Methods"))
    (n7 : k ≠ str ("Access-Control-Allow-Headers"))
    (n8 : k ≠ str ("Access-Control-Expose-Headers")) :
    getHeader (relayFinish e pr).2.1.headers k = getHeader pr.headers k := by
  unfold relayFinish
  rw [getHeader_withCORS_other _ _ _ _ n4 n5 n6 n7 n8,
    getHeader_setHeader_ne _ _ n3, getHeader_delHeader_ne _ n2,
    getHeader_delHeader_ne _ n1]

theorem relayFinish_x_final_url (e : Exchange) (pr : ProxyResponse) :
    getHeader (relayFinish e pr).2.1.headers (str ("x-final-url")) =
      some e.state.location.href := by
  unfold relayFinish
  rw [getHeader_withCORS_other _ _ _ _ (by decide) (by decide) (by decide) (by decide)
    (by decide), getHeader_setHeader_self]

theorem relayFinish_expose (e : Exchange) (pr : ProxyResponse)
    (hfresh : getHeader pr.headers (str ("Access-Control-Expose-Headers")) = none) :
    getHeader (relayFinish e pr).2.1.headers (str ("Access-Control-Expose-Headers")) =
      some (List.intercalate (str (","))
        (((relayFinish e pr).2.1.headers.map (fun p => p.1)).filter
          (fun k => !(k == str ("Access-Control-Expose-Headers"))))) := by
  unfold relayFinish
  apply withCORS_expose
  rw [getHeader_setHeader_ne _ _ (by decide), getHeader_delHeader_ne _ (by decide),
    getHeader_delHeader_ne _ (by decide)]
  exact hfresh

/-- Every piped (`true`) outcome of `onProxyResponse` is produced by
`relayFinish`, applied to the exchange after the `x-request-url` and
redirect-count updates and to the response after the optional
`Location` rewrite (which never touches `Access-Control-Expose-Headers`
and leaves the status code unchanged). -/
theorem onProxyResponse_relay_shape (e : Exchange) (pr : ProxyResponse)
    (h : (onProxyResponse e pr).2.2 = true) :
    ∃ e1 pr1, onProxyResponse e pr = relayFinish e1 pr1 ∧
      pr1.statusCode = pr.statusCode ∧
      getHeader pr1.headers (str ("Access-Control-Expose-Headers")) =
        getHeader pr.headers (str ("Access-Control-Expose-Headers")) := by
  simp only [onProxyResponse] at h ⊢
  by_cases hred : e.state.redirectCount_ = 0 <;>
    simp only [hred, if_true, if_false, ite_true, ite_false, if_pos, if_neg] at h ⊢
  all_goals {
    by_cases houter : pr.statusCode = 301 ∨ pr.statusCode = 302 ∨ pr.statusCode = 303 ∨ pr.statusCode = 307 ∨ pr.statusCode = 308
    case neg =>
      try simp only [houter, if_false, ite_false] at h ⊢
      exact ⟨_, _, rfl, rfl, rfl⟩
    case pos =>
      try simp only [houter, if_true, ite_true] at h ⊢
      cases hloc : truthy (getHeader pr.headers (str ("location"))) with
      | none =>
        simp only [hloc] at h ⊢
        exact ⟨_, _, rfl, rfl, rfl⟩
      | some v =>
        simp only [hloc] at h ⊢
        cases hparse : parseURL (urlResolve e.state.location.href v) with
        | none =>
          simp only [hparse] at h ⊢
          exact ⟨_, _, rfl, rfl, rfl⟩
        | some u =>
          simp only [hparse] at h ⊢
          by_cases h3 : pr.statusCode = 301 ∨ pr.statusCode = 302 ∨ pr.statusCode = 303
          case neg =>
            try simp only [h3, if_false, ite_false] at h ⊢
            refine ⟨_, _, rfl, rfl, ?_⟩
            rw [getHeader_setHeader_ne _ _ (by decide)]
          case pos =>
            try simp only [h3, if_true, ite_true] at h ⊢
            split at h
            case isTrue => exact absurd h (by simp)
            case isFalse hc =>
              rw [if_neg hc]
              refine ⟨_, _, rfl, rfl, ?_⟩
              rw [getHeader_setHeader_ne _ _ (by decide)]
  }

/-! ## The redirect-follow chain -/

/-- The debug-header key `X-CORS-Redirect-<n>`. -/
def redirKey (n : Nat) : Str := str ("X-CORS-Redirect-") ++ natDigits n

/-- The `x-request-url` update at the top of `onProxyResponse`: applied
only on the first hop (redirect count still zero). -/
def xruUpdate (e : Exchange) : Exchange :=
  if e.state.redirectCount_ = 0 then
    { e with resHeaders := (setHeader e.resHeaders (str ("x-request-url"))
        e.state.location.href) }
  else e

/-- The exchange after one internally-followed redirect: method forced
to `GET`, body stripped, location replaced, debug header staged, count
incremented. -/
def followUpdate (e : Exchange) (u : TargetURL) (locationHeader : Str)
    (status : Nat) : Exchange :=
  { reqMethod := str ("GET")
    reqUrl := u.path
    reqHeaders := (delHeader
      (setHeader e.reqHeaders (str ("content-length")) (str ("0")))
      (str ("content-type")))
    state := { e.state with
      location := u
      redirectCount_ := e.state.redirectCount_ + 1 }
    resHeaders := (setHeader e.resHeaders
      (redirKey (e.state.redirectCount_ + 1))
      (natDigits status ++ [ ' ' ] ++ locationHeader)) }

theorem xruUpdate_state (e : Exchange) : (xruUpdate e).state = e.state := by
  unfold xruUpdate; split <;> rfl

theorem xruUpdate_id {e : Exchange} (h : e.state.redirectCount_ ≠ 0) :
    xruUpdate e = e := by
  unfold xruUpdate; rw [if_neg h]

theorem urlResolve_absolute {loc : Str} (base : Str)
    (habs : (ciHasPre (str ("http://")) loc || ciHasPre (str ("https://")) loc) = true) :
    urlResolve base loc = loc := by
  unfold urlResolve; rw [if_pos habs]

theorem absolute_ne_nil {loc : Str}
    (habs : (ciHasPre (str ("http://")) loc || ciHasPre (str ("https://")) loc) = true) :
    loc ≠ [] := by
  intro h
  subst h
  simp [ciHasPre, str] at habs

/-- Follow step: a 301/302/303 response with a parsable location while
the incremented count stays within the budget is not piped; the request
is re-issued against the parsed location. -/
theorem onProxyResponse_follow (e : Exchange) (pr : ProxyResponse)
    {l0 v : Str} {u : TargetURL}
    (h3 : pr.statusCode = 301 ∨ pr.statusCode = 302 ∨ pr.statusCode = 303)
    (hloc : truthy (getHeader pr.headers (str ("location"))) = some l0)
    (hres : urlResolve e.state.location.href l0 = v)
    (hparse : parseURL v = some u)
    (hcnt : e.state.redirectCount_ + 1 ≤ e.state.maxRedirects) :
    onProxyResponse e pr = (followUpdate (xruUpdate e) u v pr.statusCode, pr, false) := by
  have houter : pr.statusCode = 301 ∨ pr.statusCode = 302 ∨ pr.statusCode = 303 ∨
      pr.statusCode = 307 ∨ pr.statusCode = 308 := by tauto
  unfold xruUpdate followUpdate
  by_cases hred : e.state.redirectCount_ = 0
  case pos =>
    have hcnt0 : 1 ≤ e.state.maxRedirects := by omega
    simp only [onProxyResponse, hred, if_true, ite_true, houter, hloc, hres,
      hparse, h3, redirKey]
    simp [hred, hcnt0]
  case neg =>
    simp only [onProxyResponse, hred, if_false, ite_false, houter, hloc, hres,
      hparse, h3, redirKey]
    simp [hred, hcnt]

/-- Relay step for a non-redirect status: the response is piped through
the relay mutations unchanged. -/
theorem onProxyResponse_not_redirect (e : Exchange) (pr : ProxyResponse)
    (hst : ¬ (pr.statusCode = 301 ∨ pr.statusCode = 302 ∨ pr.statusCode = 303 ∨
      pr.statusCode = 307 ∨ pr.statusCode = 308)) :
    onProxyResponse e pr = relayFinish (xruUpdate e) pr := by
  unfold xruUpdate
  by_cases hred : e.state.redirectCount_ = 0 <;>
    simp only [onProxyResponse, hred, if_true, if_false, ite_true, ite_false, hst]

/-- Relay step when the budget is exhausted: the count is still bumped,
the `Location` header is rewritten to be proxy-relative, and the
response is piped. -/
theorem onProxyResponse_over_max (e : Exchange) (pr : ProxyResponse)
    {l0 v : Str} {u : TargetURL}
    (h3 : pr.statusCode = 301 ∨ pr.statusCode = 302 ∨ pr.statusCode = 303)
    (hloc : truthy (getHeader pr.headers (str ("location"))) = some l0)
    (hres : urlResolve e.state.location.href l0 = v)
    (hparse : parseURL v = some u)
    (hcnt : ¬ (e.state.redirectCount_ + 1 ≤ e.state.maxRedirects)) :
    onProxyResponse e pr =
      relayFinish
        { xruUpdate e with state := { e.state with
            redirectCount_ := e.state.redirectCount_ + 1 } }
        { pr with headers := (setHeader pr.headers (str ("location"))
            (e.state.proxyBaseUrl ++ [ '/' ] ++ v)) } := by
  have houter : pr.statusCode = 301 ∨ pr.statusCode = 302 ∨ pr.statusCode = 303 ∨
      pr.statusCode = 307 ∨ pr.statusCode = 308 := by tauto
  unfold xruUpdate
  by_cases hred : e.state.redirectCount_ = 0
  case pos =>
    have hcnt0 : ¬ (1 ≤ e.state.maxRedirects) := by omega
    simp only [onProxyResponse, hred, if_true, ite_true, houter, hloc, hres,
      hparse, h3]
    simp [hred, hcnt0]
  case neg =>
    simp only [onProxyResponse, hred, if_false, ite_false, houter, hloc, hres,
      hparse, h3]
    simp [hred, hcnt]

/-- Iterated internal follows of the same (absolute) redirect
location. -/
def followN (l0 : Str) (u : TargetURL) : Nat → Exchange → Exchange
  | 0, e => e
  | n + 1, e => followN l0 u n (followUpdate e u l0 302)

theorem followUpdate_maxRedirects (e : Exchange) (u : TargetURL) (v : Str) (s : Nat) :
    (followUpdate e u v s).state.maxRedirects = e.state.maxRedirects := rfl

theorem followUpdate_proxyBaseUrl (e : Exchange) (u : TargetURL) (v : Str) (s : Nat) :
    (followUpdate e u v s).state.proxyBaseUrl = e.state.proxyBaseUrl := rfl

theorem followUpdate_count (e : Exchange) (u : TargetURL) (v : Str) (s : Nat) :
    (followUpdate e u v s).state.redirectCount_ = e.state.redirectCount_ + 1 := rfl

theorem followN_count (l0 : Str) (u : TargetURL) :
    ∀ (n : Nat) (e : Exchange),
      (followN l0 u n e).state.redirectCount_ = e.state.redirectCount_ + n := by
  intro n
  induction n with
  | zero => intro e; rfl
  | succ n ih =>
    intro e
    rw [followN, ih, followUpdate_count]
    omega

theorem followN_maxRedirects (l0 : Str) (u : TargetURL) :
    ∀ (n : Nat) (e : Exchange),
      (followN l0 u n e).state.maxRedirects = e.state.maxRedirects := by
  intro n
  induction n with
  | zero => intro e; rfl
  | succ n ih => intro e; rw [followN, ih, followUpdate_maxRedirects]

theorem followN_proxyBaseUrl (l0 : Str) (u : TargetURL) :
    ∀ (n : Nat) (e : Exchange),
      (followN l0 u n e).state.proxyBaseUrl = e.state.proxyBaseUrl := by
  intro n
  induction n with
  | zero => intro e; rfl
  | succ n ih => intro e; rw [followN, ih, followUpdate_proxyBaseUrl]

theorem redirKey_inj {i j : Nat} (h : redirKey i = redirKey j) : i = j := by
  unfold redirKey at h
  exact natDigits_injective (List.append_cancel_left h)

theorem redirKey_ne_xru (j : Nat) : redirKey j ≠ str ("x-request-url") := by
  intro h
  have h1 : some 'X' = some 'x' := by
    calc some 'X' = (redirKey j).head? := rfl
    _ = (str ("x-request-url")).head? := by rw [h]
    _ = some 'x' := rfl
  exact absurd h1 (by decide)

theorem followN_resHeaders (l0 : Str) (u : TargetURL) :
    ∀ (n : Nat) (e : Exchange),
      (∀ j, e.state.redirectCount_ < j → getHeader e.resHeaders (redirKey j) = none) →
      (followN l0 u n e).resHeaders =
        e.resHeaders ++ (List.range n).map
          (fun i => (redirKey (e.state.redirectCount_ + 1 + i),
            natDigits 302 ++ [ ' ' ] ++ l0)) := by
  intro n
  induction n with
  | zero => intro e _; simp [followN]
  | succ n ih =>
    intro e hfresh
    have hstep : (followUpdate e u l0 302).resHeaders =
        e.resHeaders ++ [(redirKey (e.state.redirectCount_ + 1),
          natDigits 302 ++ [ ' ' ] ++ l0)] := by
      unfold followUpdate
      exact setHeader_eq_append (hfresh _ (by omega)) _
    have hfresh' : ∀ j, (followUpdate e u l0 302).state.redirectCount_ < j →
        getHeader (followUpdate e u l0 302).resHeaders (redirKey j) = none := by
      intro j hj
      rw [followUpdate_count] at hj
      rw [hstep, getHeader_append_right (hfresh j (by omega))]
      have hne : ¬ (redirKey (e.state.redirectCount_ + 1) = redirKey j) := by
        intro hk
        have := redirKey_inj hk
        omega
      simp [getHeader, hne]
    rw [followN, ih _ hfresh', hstep, followUpdate_count, List.append_assoc]
    have harr : (List.range (n + 1)).map
        (fun i => (redirKey (e.state.redirectCount_ + 1 + i),
          natDigits 302 ++ [ ' ' ] ++ l0)) =
        (redirKey (e.state.redirectCount_ + 1), natDigits 302 ++ [ ' ' ] ++ l0) ::
          (List.range n).map
            (fun i => (redirKey (e.state.redirectCount_ + 1 + 1 + i),
              natDigits 302 ++ [ ' ' ] ++ l0)) := by
      rw [List.range_succ_eq_map, List.map_cons, List.map_map]
      congr 1
      apply List.map_congr_left
      intro a _
      simp only [Function.comp_apply, Nat.succ_eq_add_one]
      have h2 : e.state.redirectCount_ + 1 + (a + 1) =
          e.state.redirectCount_ + 1 + 1 + a := by omega
      rw [h2]
    rw [harr]
    rfl

theorem runExchange_chain (l0 : Str) (u : TargetURL)
    (habs : (ciHasPre (str ("http://")) l0 || ciHasPre (str ("https://")) l0) = true)
    (hparse : parseURL l0 = some u) :
    ∀ (n : Nat) (e : Exchange) (rest : List ProxyResponse),
      e.state.redirectCount_ ≠ 0 →
      e.state.redirectCount_ + n ≤ e.state.maxRedirects →
      runExchange e
          (List.replicate n ⟨302, [(str ("location"), l0)]⟩ ++ rest) =
        runExchange (followN l0 u n e) rest := by
  have hloc : truthy (getHeader [(str ("location"), l0)] (str ("location"))) = some l0 := by
    simp [getHeader, truthy, absolute_ne_nil habs]
  intro n
  induction n with
  | zero => intro e rest _ _; simp [followN]
  | succ n ih =>
    intro e rest hc hbound
    have hstep := onProxyResponse_follow e ⟨302, [(str ("location"), l0)]⟩
      (by simp) hloc (urlResolve_absolute _ habs) hparse (by omega)
    rw [xruUpdate_id hc] at hstep
    rw [List.replicate_succ, List.cons_append, runExchange]
    simp only [hstep]
    rw [followN]
    exact ih (followUpdate e u l0 302) rest
      (by rw [followUpdate_count]; omega)
      (by rw [followUpdate_count, followUpdate_maxRedirects]; omega)

/-! ## Lemmas about `parseURL` and the inferred scheme -/

theorem ciHasPre_append_self : ∀ (p t : Str), ciHasPre p (p ++ t) = true := by
  intro p
  induction p with
  | nil => intro t; rfl
  | cons c cs ih => intro t; simp [ciHasPre, ih]

theorem listPre_exists {p : Str} : ∀ {s : Str}, listPre p s = true → ∃ t, s = p ++ t := by
  induction p with
  | nil => intro s _; exact ⟨s, rfl⟩
  | cons c cs ih =>
    intro s h
    cases s with
    | nil => simp [listPre] at h
    | cons d ds =>
      simp only [listPre, Bool.and_eq_true, beq_iff_eq] at h
      obtain ⟨t, ht⟩ := ih h.2
      exact ⟨t, by rw [ht, h.1]; rfl⟩

theorem urlParse_https (t : Str) :
    urlParse (str ("https://") ++ t) = some (urlParseAfter (str ("https:")) t) := by
  unfold urlParse
  rw [if_pos (ciHasPre_append_self _ t)]
  show some (urlParseAfter (str ("https:")) (List.drop 8 (str ("https://") ++ t))) =
    some (urlParseAfter (str ("https:")) t)
  rfl

theorem not_ciHasPre_https_of_http (t : Str) :
    ciHasPre (str ("https://")) (str ("http://") ++ t) = false := rfl

theorem urlParse_http (t : Str) :
    urlParse (str ("http://") ++ t) = some (urlParseAfter (str ("http:")) t) := by
  unfold urlParse
  rw [not_ciHasPre_https_of_http, if_neg (by simp),
    if_pos (ciHasPre_append_self (str ("http://")) t)]
  rfl

theorem urlParseAfter_protocol (proto rest : Str) :
    (urlParseAfter proto rest).protocol = proto := rfl

theorem finishParse_some {s : Str} {u : TargetURL} (h : finishParse s = some u) :
    urlParse s = some u := by
  unfold finishParse at h
  cases hu : urlParse s with
  | none => rw [hu] at h; exact absurd h (by simp)
  | some p =>
    rw [hu] at h
    by_cases hh : p.hostname = []
    · simp [hh] at h
    · simp only [if_neg hh] at h
      exact h

theorem finishParse_scheme_https {w : Str} {u : TargetURL}
    (h : finishParse (str ("https://") ++ w) = some u) : u.protocol = str ("https:") := by
  have h2 := finishParse_some h
  rw [urlParse_https] at h2
  have h3 : urlParseAfter (str ("https:")) w = u := by injection h2
  rw [← h3]
  rfl

theorem finishParse_scheme_http {w : Str} {u : TargetURL}
    (h : finishParse (str ("http://") ++ w) = some u) : u.protocol = str ("http:") := by
  have h2 := finishParse_some h
  rw [urlParse_http] at h2
  have h3 : urlParseAfter (str ("http:")) w = u := by injection h2
  rw [← h3]
  rfl

/-! ## The claims -/

/-- C9: `parseURL` rejects both `http:/onlyone` (a scheme token without
its second slash, caught by the explicit `https?:` guard after the
pattern binds `http:` as a host) and `:1/` (whose constructed URL has
an empty hostname). -/
theorem claim_C9 :
    parseURL (str ("http:/onlyone")) = none ∧ parseURL (str (":1/")) = none ∧
      (urlParse (str ("http://:1/"))).map (fun p => p.hostname) = some [] := by
  refine ⟨by decide, by decide, by decide⟩

/-- C4: for every scheme-less input accepted by `parseURL`, the
inferred protocol is `https:` exactly when the regex's port capture is
the literal string `443`, and `http:` otherwise. -/
theorem claim_C4 (s : Str) (m : URegexMatch) (u : TargetURL)
    (hm : uMatch s = some m) (hs : m.protocol = none)
    (hp : parseURL s = some u) :
    (u.protocol = str ("http:") ∨ u.protocol = str ("https:")) ∧
    (u.protocol = str ("https:") ↔ m.parts.port = some (str ("443"))) := by
  unfold parseURL at hp
  rw [hm] at hp
  simp only [hs, Option.isSome_none, Bool.false_eq_true, if_false] at hp
  cases hci : (ciHasPre (str ("http:")) s || ciHasPre (str ("https:")) s) with
  | true => simp [hci] at hp
  | false =>
    simp only [hci, Bool.false_eq_true, if_false] at hp
    by_cases hport : m.parts.port = some (str ("443"))
    case pos =>
      rw [if_pos hport] at hp
      have hproto : u.protocol = str ("https:") := by
        by_cases hsl : listPre (str ("//")) s = true
        case pos =>
          rw [if_pos hsl] at hp
          obtain ⟨t, rfl⟩ := listPre_exists hsl
          exact finishParse_scheme_https hp
        case neg =>
          rw [if_neg hsl] at hp
          exact finishParse_scheme_https hp
      exact ⟨Or.inr hproto, ⟨fun _ => hport, fun _ => hproto⟩⟩
    case neg =>
      rw [if_neg hport] at hp
      have hproto : u.protocol = str ("http:") := by
        by_cases hsl : listPre (str ("//")) s = true
        case pos =>
          rw [if_pos hsl] at hp
          obtain ⟨t, rfl⟩ := listPre_exists hsl
          exact finishParse_scheme_http hp
        case neg =>
          rw [if_neg hsl] at hp
          exact finishParse_scheme_http hp
      refine ⟨Or.inl hproto, ⟨fun hq => ?_, fun hq => absurd hq hport⟩⟩
      rw [hproto] at hq
      exact absurd hq (by decide)

theorem claim_C4_witness :
    ∃ u4 u8, parseURL (str ("example.com:443/x")) = some u4 ∧
      u4.protocol = str ("https:") ∧
      parseURL (str ("example.com:8080/x")) = some u8 ∧
      u8.protocol = str ("http:") := by
  have hm4 : uMatch (str ("example.com:443/x")) =
      some ⟨none, ⟨str ("example.com:443"), str ("example.com"),
        some (str ("443")), str ("/x")⟩⟩ := by decide
  have hp4 : parseURL (str ("example.com:443/x")) =
      some ⟨str ("https:"), none, str ("example.com"), some (str ("443")),
        str ("example.com:443"), str ("/x"), str ("https://example.com:443/x")⟩ := by decide
  have hm8 : uMatch (str ("example.com:8080/x")) =
      some ⟨none, ⟨str ("example.com:8080"), str ("example.com"),
        some (str ("8080")), str ("/x")⟩⟩ := by decide
  have hp8 : parseURL (str ("example.com:8080/x")) =
      some ⟨str ("http:"), none, str ("example.com"), some (str ("8080")),
        str ("example.com:8080"), str ("/x"), str ("http://example.com:8080/x")⟩ := by decide
  refine ⟨_, _, hp4, ?_, hp8, ?_⟩
  · exact (claim_C4 _ _ _ hm4 rfl hp4).2.mpr rfl
  · rcases (claim_C4 _ _ _ hm8 rfl hp8).1 with h | h
    · exact h
    · have := (claim_C4 _ _ _ hm8 rfl hp8).2.mp h
      exact absurd this (by decide)

/-- Relay step for a 307/308 response with a parsable location: the
`Location` header is rewritten to be proxy-relative and the response is
piped through the relay mutations; the redirect counter is untouched. -/
theorem onProxyResponse_preserve_method_redirect (e : Exchange) (pr : ProxyResponse)
    {l0 v : Str} {u : TargetURL}
    (h78 : pr.statusCode = 307 ∨ pr.statusCode = 308)
    (hloc : truthy (getHeader pr.headers (str ("location"))) = some l0)
    (hres : urlResolve e.state.location.href l0 = v)
    (hparse : parseURL v = some u) :
    onProxyResponse e pr =
      relayFinish (xruUpdate e)
        { pr with headers := (setHeader pr.headers (str ("location"))
            (e.state.proxyBaseUrl ++ [ '/' ] ++ v)) } := by
  have houter : pr.statusCode = 301 ∨ pr.statusCode = 302 ∨ pr.statusCode = 303 ∨
      pr.statusCode = 307 ∨ pr.statusCode = 308 := by tauto
  have hn3 : ¬ (pr.statusCode = 301 ∨ pr.statusCode = 302 ∨ pr.statusCode = 303) := by
    rcases h78 with h | h <;> rw [h] <;> simp
  unfold xruUpdate
  by_cases hred : e.state.redirectCount_ = 0
  case pos =>
    simp only [onProxyResponse, hred, if_true, ite_true, houter, hloc, hres,
      hparse, hn3]
    simp [hred]
  case neg =>
    simp only [onProxyResponse, hred, if_false, ite_false, houter, hloc, hres,
      hparse, hn3]
    simp [hred]

/-- C3: a 307 or 308 upstream response with a parsable `Location` is
never re-issued internally, whatever the redirect count: it is relayed
(piped) with the `Location` header rewritten to
`proxyBaseUrl + '/' + absoluteLocation`, and the redirect counter is
unchanged. -/
theorem claim_C3 (e : Exchange) (pr : ProxyResponse) {l0 v : Str} {u : TargetURL}
    (h78 : pr.statusCode = 307 ∨ pr.statusCode = 308)
    (hloc : truthy (getHeader pr.headers (str ("location"))) = some l0)
    (hres : urlResolve e.state.location.href l0 = v)
    (hparse : parseURL v = some u) :
    (onProxyResponse e pr).2.2 = true ∧
    (onProxyResponse e pr).1.state.redirectCount_ = e.state.redirectCount_ ∧
    (onProxyResponse e pr).2.1.statusCode = pr.statusCode ∧
    getHeader (onProxyResponse e pr).2.1.headers (str ("location")) =
      some (e.state.proxyBaseUrl ++ [ '/' ] ++ v) := by
  rw [onProxyResponse_preserve_method_redirect e pr h78 hloc hres hparse]
  refine ⟨rfl, ?_, rfl, ?_⟩
  · rw [relayFinish_state, xruUpdate_state]
  · rw [relayFinish_other _ _ (by decide) (by decide) (by decide) (by decide)
      (by decide) (by decide) (by decide) (by decide)]
    exact getHeader_setHeader_self _ _ _

theorem claim_C3_witness :
    ∃ r, onProxyResponse
        ⟨str ("POST"), str ("/start"), [],
          ⟨⟨str ("http:"), none, str ("a.example.com"), none, str ("a.example.com"),
            str ("/start"), str ("http://a.example.com/start")⟩,
           str ("http://proxy.test"), 5, 3, 0⟩, []⟩
        ⟨307, [(str ("location"), str ("http://b.example.com/r"))]⟩ = r ∧
      r.2.2 = true ∧ r.1.state.redirectCount_ = 3 ∧
      getHeader r.2.1.headers (str ("location")) =
        some (str ("http://proxy.test/http://b.example.com/r")) := by
  have hloc : truthy (getHeader [(str ("location"), str ("http://b.example.com/r"))]
      (str ("location"))) = some (str ("http://b.example.com/r")) := by decide
  have hres : urlResolve (str ("http://a.example.com/start"))
      (str ("http://b.example.com/r")) = str ("http://b.example.com/r") := rfl
  have hparse : parseURL (str ("http://b.example.com/r")) =
      some ⟨str ("http:"), none, str ("b.example.com"), none, str ("b.example.com"),
        str ("/r"), str ("http://b.example.com/r")⟩ := by decide
  have h := claim_C3
    ⟨str ("POST"), str ("/start"), [],
      ⟨⟨str ("http:"), none, str ("a.example.com"), none, str ("a.example.com"),
        str ("/start"), str ("http://a.example.com/start")⟩,
       str ("http://proxy.test"), 5, 3, 0⟩, []⟩
    ⟨307, [(str ("location"), str ("http://b.example.com/r"))]⟩
    (Or.inl rfl) hloc hres hparse
  exact ⟨_, rfl, h.1, h.2.1, h.2.2.2⟩

/-- C5: every upstream response that is relayed to the client (piped
rather than internally re-issued) carries neither `set-cookie` nor
`set-cookie2`, whatever headers the upstream sent. -/
theorem claim_C5 (e : Exchange) (pr : ProxyResponse)
    (h : (onProxyResponse e pr).2.2 = true) :
    getHeader (onProxyResponse e pr).2.1.headers (str ("set-cookie")) = none ∧
    getHeader (onProxyResponse e pr).2.1.headers (str ("set-cookie2")) = none := by
  obtain ⟨e1, pr1, heq, _, _⟩ := onProxyResponse_relay_shape e pr h
  rw [heq]
  exact ⟨relayFinish_no_cookie _ _, relayFinish_no_cookie2 _ _⟩

theorem claim_C5_witness :
    (onProxyResponse
        ⟨str ("GET"), str ("/x"), [],
          ⟨⟨str ("http:"), none, str ("a.example.com"), none, str ("a.example.com"),
            str ("/x"), str ("http://a.example.com/x")⟩,
           str ("http://proxy.test"), 5, 0, 0⟩, []⟩
        ⟨200, [(str ("set-cookie"), str ("sid=1")),
               (str ("set-cookie2"), str ("sid=2")),
               (str ("content-type"), str ("text/html"))]⟩).2.2 = true ∧
    getHeader (onProxyResponse
        ⟨str ("GET"), str ("/x"), [],
          ⟨⟨str ("http:"), none, str ("a.example.com"), none, str ("a.example.com"),
            str ("/x"), str ("http://a.example.com/x")⟩,
           str ("http://proxy.test"), 5, 0, 0⟩, []⟩
        ⟨200, [(str ("set-cookie"), str ("sid=1")),
               (str ("set-cookie2"), str ("sid=2")),
               (str ("content-type"), str ("text/html"))]⟩).2.1.headers
      (str ("set-cookie")) = none := by
  refine ⟨by decide, ?_⟩
  exact (claim_C5 _ _ (by decide)).1

/-- C8: when the incoming request carries `Access-Control-Request-Method`,
`withCORS` echoes its value into `Access-Control-Allow-Methods` on the
response and removes the request header, and likewise echoes
`Access-Control-Request-Headers` into `Access-Control-Allow-Headers`
and consumes it. -/
theorem claim_C8 (h : Headers) (m : Str) (rh : Headers) (a : Nat) :
    (∀ v, truthy (getHeader rh (str ("Access-Control-Request-Method"))) = some v →
      getHeader (withCORS h m rh a).1 (str ("Access-Control-Allow-Methods")) = some v ∧
      getHeader (withCORS h m rh a).2 (str ("Access-Control-Request-Method")) = none) ∧
    (∀ w, truthy (getHeader rh (str ("Access-Control-Request-Headers"))) = some w →
      getHeader (withCORS h m rh a).1 (str ("Access-Control-Allow-Headers")) = some w ∧
      getHeader (withCORS h m rh a).2 (str ("Access-Control-Request-Headers")) = none) := by
  constructor
  · intro v hv
    exact ⟨withCORS_echo_methods h m rh a hv, withCORS_consumes_arm h m rh a hv⟩
  · intro w hw
    exact ⟨withCORS_echo_headers h m rh a hw, withCORS_consumes_arh h m rh a hw⟩

theorem claim_C8_witness :
    getHeader (withCORS [] (str ("OPTIONS"))
        [(str ("Access-Control-Request-Method"), str ("PUT")),
         (str ("Access-Control-Request-Headers"), str ("X-Custom"))] 0).1
      (str ("Access-Control-Allow-Methods")) = some (str ("PUT")) ∧
    getHeader (withCORS [] (str ("OPTIONS"))
        [(str ("Access-Control-Request-Method"), str ("PUT")),
         (str ("Access-Control-Request-Headers"), str ("X-Custom"))] 0).2
      (str ("Access-Control-Request-Method")) = none ∧
    getHeader (withCORS [] (str ("OPTIONS"))
        [(str ("Access-Control-Request-Method"), str ("PUT")),
         (str ("Access-Control-Request-Headers"), str ("X-Custom"))] 0).1
      (str ("Access-Control-Allow-Headers")) = some (str ("X-Custom")) ∧
    getHeader (withCORS [] (str ("OPTIONS"))
        [(str ("Access-Control-Request-Method"), str ("PUT")),
         (str ("Access-Control-Request-Headers"), str ("X-Custom"))] 0).2
      (str ("Access-Control-Request-Headers")) = none := by
  have h1 := (claim_C8 [] (str ("OPTIONS"))
    [(str ("Access-Control-Request-Method"), str ("PUT")),
     (str ("Access-Control-Request-Headers"), str ("X-Custom"))] 0).1
    (str ("PUT")) (by decide)
  have h2 := (claim_C8 [] (str ("OPTIONS"))
    [(str ("Access-Control-Request-Method"), str ("PUT")),
     (str ("Access-Control-Request-Headers"), str ("X-Custom"))] 0).2
    (str ("X-Custom")) (by decide)
  exact ⟨h1.1, h1.2, h2.1, h2.2⟩

/-- C7 counterexample: with `redirectSameOrigin` enabled, the 301
same-origin response has its `Access-Control-Expose-Headers` computed
before `consty`, `cache-control` and `location` are added, so the
response contains a `location` header that the expose list does not
mention — refuting the claim that the value always lists every header
of the response. -/
theorem claim_C7_counterexample :
    getHandler { defaultConfig with redirectSameOrigin := true }
        ⟨str ("GET"), str ("/http://app.example.com/data"),
         [(str ("origin"), str ("http://app.example.com"))], false⟩ =
      .response 301 (str ("Please use a direct request"))
        [(str ("Access-Control-Allow-Origin"), str ("*")),
         (str ("Access-Control-Expose-Headers"), str ("Access-Control-Allow-Origin")),
         (str ("consty"), str ("origin")),
         (str ("cache-control"), str ("private")),
         (str ("location"), str ("http://app.example.com/data"))] [] ∧
    getHeader
        [(str ("Access-Control-Allow-Origin"), str ("*")),
         (str ("Access-Control-Expose-Headers"), str ("Access-Control-Allow-Origin")),
         (str ("consty"), str ("origin")),
         (str ("cache-control"), str ("private")),
         (str ("location"), str ("http://app.example.com/data"))]
        (str ("Access-Control-Expose-Headers")) =
      some (str ("Access-Control-Allow-Origin")) ∧
    (str ("Access-Control-Allow-Origin")) ≠
      List.intercalate (str (","))
        (([(str ("Access-Control-Allow-Origin"), str ("*")),
           (str ("Access-Control-Expose-Headers"), str ("Access-Control-Allow-Origin")),
           (str ("consty"), str ("origin")),
           (str ("cache-control"), str ("private")),
           (str ("location"), str ("http://app.example.com/data"))].map
            (fun p => p.1)).filter
          (fun k => !(k == str ("Access-Control-Expose-Headers")))) := by
  refine ⟨by decide, by decide, by decide⟩

/-- C7 as amended: the `Access-Control-Expose-Headers` value is the
comma-join of exactly the header names present at the moment `withCORS`
runs.  For relayed upstream responses the injector runs last, so the
value lists every header name of the relayed response except
`Access-Control-Expose-Headers` itself; for responses whose headers are
extended after injection (the same-origin 301 redirect and the
usage/help page) the later additions are missing from the list. -/
theorem claim_C7_amended (e : Exchange) (pr : ProxyResponse)
    (hrel : (onProxyResponse e pr).2.2 = true)
    (hfresh : getHeader pr.headers (str ("Access-Control-Expose-Headers")) = none) :
    getHeader (onProxyResponse e pr).2.1.headers
        (str ("Access-Control-Expose-Headers")) =
      some (List.intercalate (str (","))
        (((onProxyResponse e pr).2.1.headers.map (fun p => p.1)).filter
          (fun k => !(k == str ("Access-Control-Expose-Headers"))))) := by
  obtain ⟨e1, pr1, heq, _, hexp⟩ := onProxyResponse_relay_shape e pr hrel
  rw [heq]
  exact relayFinish_expose e1 pr1 (by rw [hexp]; exact hfresh)

theorem claim_C7_amended_witness :
    getHeader (onProxyResponse
        ⟨str ("GET"), str ("/x"), [],
          ⟨⟨str ("http:"), none, str ("a.example.com"), none, str ("a.example.com"),
            str ("/x"), str ("http://a.example.com/x")⟩,
           str ("http://proxy.test"), 5, 0, 0⟩, []⟩
        ⟨200, [(str ("content-type"), str ("text/html"))]⟩).2.1.headers
      (str ("Access-Control-Expose-Headers")) =
    some (List.intercalate (str (","))
      (((onProxyResponse
        ⟨str ("GET"), str ("/x"), [],
          ⟨⟨str ("http:"), none, str ("a.example.com"), none, str ("a.example.com"),
            str ("/x"), str ("http://a.example.com/x")⟩,
           str ("http://proxy.test"), 5, 0, 0⟩, []⟩
        ⟨200, [(str ("content-type"), str ("text/html"))]⟩).2.1.headers.map
          (fun p => p.1)).filter
        (fun k => !(k == str ("Access-Control-Expose-Headers"))))) :=
  claim_C7_amended _ _ (by decide) (by decide)

/-- C1 counterexample: the `iscorsneeded` self-test probe answers
`200 no` with only a `Content-Type` header — a response produced by the
request handler whose header set does not include
`Access-Control-Allow-Origin`, refuting the claim as stated. -/
theorem claim_C1_counterexample :
    getHandler defaultConfig
        ⟨str ("GET"), str ("/iscorsneeded"), [], false⟩ =
      .response 200 [] [(str ("Content-Type"), str ("text/plain"))] (str ("no")) ∧
    getHeader [(str ("Content-Type"), str ("text/plain"))]
        (str ("Access-Control-Allow-Origin")) = none := by
  refine ⟨by decide, by decide⟩

set_option maxHeartbeats 1000000 in
/-- C1 as amended: every terminal response written by the request
handler carries `Access-Control-Allow-Origin: *` except the
`iscorsneeded` self-test probe (`200 no`, `Content-Type` only); the
usage/help response headers carry it (also after `showUsage` adds its
`content-type`); and the engine-error handler's 404 carries it.  The
claim as stated fails only on the probe. -/
theorem claim_C1_amended (c : Config) (req : RequestModel) :
    (∀ st stx hh b, getHandler c req = .response st stx hh b →
      getHeader hh (str ("Access-Control-Allow-Origin")) = some (str ("*")) ∨
      (st = 200 ∧ b = str ("no") ∧
        hh = [(str ("Content-Type"), str ("text/plain"))])) ∧
    (∀ hh, getHandler c req = .usage hh → ∀ isHtml,
      getHeader (showUsageHeaders isHtml hh) (str ("Access-Control-Allow-Origin")) =
        some (str ("*"))) ∧
    (∀ err r, proxyErrorHandler false err = some r →
      getHeader r.2.1 (str ("Access-Control-Allow-Origin")) = some (str ("*"))) := by
  refine ⟨?_, ?_, ?_⟩
  · intro st stx hh b heq
    simp only [getHandler] at heq
    by_cases h1 : req.method = str ("OPTIONS")
    · rw [if_pos h1] at heq
      cases heq
      exact Or.inl (getHeader_withCORS_ACAO _ _ _ _)
    rw [if_neg h1] at heq
    by_cases h2 : (match c.handleInitialRequest with
        | some f => f req (parseURL (List.drop 1 req.url))
        | none => false) = true
    · rw [if_pos h2] at heq
      cases heq
    rw [if_neg h2] at heq
    cases hloc : parseURL (List.drop 1 req.url) with
    | none =>
      simp only [hloc] at heq
      by_cases h3 : missingSlashHit req.url = true
      · rw [if_pos h3] at heq
        cases heq
        exact Or.inl (getHeader_withCORS_ACAO _ _ _ _)
      · rw [if_neg h3] at heq
        cases heq
    | some loc =>
      simp only [hloc] at heq
      by_cases h4 : loc.host = str ("iscorsneeded")
      · rw [if_pos h4] at heq
        cases heq
        exact Or.inr ⟨rfl, rfl, rfl⟩
      rw [if_neg h4] at heq
      by_cases h5 : portTooLarge loc = true
      · rw [if_pos h5] at heq
        cases heq
        exact Or.inl (getHeader_withCORS_ACAO _ _ _ _)
      rw [if_neg h5] at heq
      by_cases h6 : ¬ schemeSlashTest req.url = true ∧ ¬ isValidHostName loc.hostname = true
      · rw [if_pos h6] at heq
        cases heq
        exact Or.inl (getHeader_withCORS_ACAO _ _ _ _)
      rw [if_neg h6] at heq
      by_cases h7 : ¬ hasRequiredHeaders c (withCORS [] req.method req.headers c.corsMaxAge).2 = true
      · rw [if_pos h7] at heq
        cases heq
        exact Or.inl (getHeader_withCORS_ACAO _ _ _ _)
      rw [if_neg h7] at heq
      by_cases h8 : ((getHeader (withCORS [] req.method req.headers c.corsMaxAge).2
          (str ("origin"))).getD []) ∈ c.originBlacklist
      · rw [if_pos h8] at heq
        cases heq
        exact Or.inl (getHeader_withCORS_ACAO _ _ _ _)
      rw [if_neg h8] at heq
      by_cases h9 : c.originWhitelist ≠ [] ∧
        ((getHeader (withCORS [] req.method req.headers c.corsMaxAge).2
          (str ("origin"))).getD []) ∉ c.originWhitelist
      · rw [if_pos h9] at heq
        cases heq
        exact Or.inl (getHeader_withCORS_ACAO _ _ _ _)
      rw [if_neg h9] at heq
      by_cases h10 : (match c.checkRateLimit with
          | some f => f ((getHeader (withCORS [] req.method req.headers c.corsMaxAge).2
              (str ("origin"))).getD [])
          | none => []) ≠ []
      · rw [if_pos h10] at heq
        cases heq
        exact Or.inl (getHeader_withCORS_ACAO _ _ _ _)
      rw [if_neg h10] at heq
      by_cases h11 : c.redirectSameOrigin = true ∧
        ((getHeader (withCORS [] req.method req.headers c.corsMaxAge).2
          (str ("origin"))).getD []) ≠ [] ∧
        sameOriginHit ((getHeader (withCORS [] req.method req.headers c.corsMaxAge).2
          (str ("origin"))).getD []) loc.href = true
      · rw [if_pos h11] at heq
        cases heq
        refine Or.inl ?_
        rw [getHeader_setHeader_ne _ _ (by decide), getHeader_setHeader_ne _ _ (by decide),
          getHeader_setHeader_ne _ _ (by decide)]
        exact getHeader_withCORS_ACAO _ _ _ _
      rw [if_neg h11] at heq
      cases heq
  · intro hh heq isHtml
    simp only [getHandler] at heq
    by_cases h1 : req.method = str ("OPTIONS")
    · rw [if_pos h1] at heq
      cases heq
    rw [if_neg h1] at heq
    by_cases h2 : (match c.handleInitialRequest with
        | some f => f req (parseURL (List.drop 1 req.url))
        | none => false) = true
    · rw [if_pos h2] at heq
      cases heq
    rw [if_neg h2] at heq
    cases hloc : parseURL (List.drop 1 req.url) with
    | none =>
      simp only [hloc] at heq
      by_cases h3 : missingSlashHit req.url = true
      · rw [if_pos h3] at heq
        cases heq
      · rw [if_neg h3] at heq
        cases heq
        unfold showUsageHeaders
        rw [getHeader_setHeader_ne _ _ (by decide)]
        exact getHeader_withCORS_ACAO _ _ _ _
    | some loc =>
      simp only [hloc] at heq
      by_cases h4 : loc.host = str ("iscorsneeded")
      · rw [if_pos h4] at heq
        cases heq
      rw [if_neg h4] at heq
      by_cases h5 : portTooLarge loc = true
      · rw [if_pos h5] at heq
        cases heq
      rw [if_neg h5] at heq
      by_cases h6 : ¬ schemeSlashTest req.url = true ∧ ¬ isValidHostName loc.hostname = true
      · rw [if_pos h6] at heq
        cases heq
      rw [if_neg h6] at heq
      by_cases h7 : ¬ hasRequiredHeaders c (withCORS [] req.method req.headers c.corsMaxAge).2 = true
      · rw [if_pos h7] at heq
        cases heq
      rw [if_neg h7] at heq
      by_cases h8 : ((getHeader (withCORS [] req.method req.headers c.corsMaxAge).2
          (str ("origin"))).getD []) ∈ c.originBlacklist
      · rw [if_pos h8] at heq
        cases heq
      rw [if_neg h8] at heq
      by_cases h9 : c.originWhitelist ≠ [] ∧
        ((getHeader (withCORS [] req.method req.headers c.corsMaxAge).2
          (str ("origin"))).getD []) ∉ c.originWhitelist
      · rw [if_pos h9] at heq
        cases heq
      rw [if_neg h9] at heq
      by_cases h10 : (match c.checkRateLimit with
          | some f => f ((getHeader (withCORS [] req.method req.headers c.corsMaxAge).2
              (str ("origin"))).getD [])
          | none => []) ≠ []
      · rw [if_pos h10] at heq
        cases heq
      rw [if_neg h10] at heq
      by_cases h11 : c.redirectSameOrigin = true ∧
        ((getHeader (withCORS [] req.method req.headers c.corsMaxAge).2
          (str ("origin"))).getD []) ≠ [] ∧
        sameOriginHit ((getHeader (withCORS [] req.method req.headers c.corsMaxAge).2
          (str ("origin"))).getD []) loc.href = true
      · rw [if_pos h11] at heq
        cases heq
      rw [if_neg h11] at heq
      cases heq
  · intro err r heq
    unfold proxyErrorHandler at heq
    rw [if_neg (by decide)] at heq
    have h2 : (404, [(str ("Access-Control-Allow-Origin"), str ("*"))],
        str ("Not found because of proxy error: ") ++ err) = r := by
      injection heq
    rw [← h2]
    rfl

theorem claim_C1_amended_witness :
    getHeader ((withCORS [] (str ("GET")) [] 0).1)
      (str ("Access-Control-Allow-Origin")) = some (str ("*")) := by
  have h := (claim_C1_amended defaultConfig
      ⟨str ("GET"), str ("/http:/x"), [], false⟩).1 400 (str ("Missing slash"))
    ((withCORS [] (str ("GET")) [] 0).1)
    (str ("The URL is invalid: two slashes are needed after the http(s):."))
    (by decide)
  rcases h with h | h
  · exact h
  · exact absurd h.1 (by decide)

theorem getHeader_withCORS_snd_other (h : Headers) (m : Str) (rh : Headers) (a : Nat)
    {k : Str}
    (n1 : k ≠ str ("Access-Control-Request-Method"))
    (n2 : k ≠ str ("Access-Control-Request-Headers")) :
    getHeader (withCORS h m rh a).2 k = getHeader rh k := by
  unfold withCORS
  cases hm : truthy (getHeader rh (str ("Access-Control-Request-Method"))) with
  | none =>
    cases hh : truthy (getHeader rh (str ("Access-Control-Request-Headers"))) <;>
      simp [hm, hh, getHeader_delHeader_ne _ n1, getHeader_delHeader_ne _ n2]
  | some v =>
    cases hh : truthy (getHeader (delHeader rh (str ("Access-Control-Request-Method")))
        (str ("Access-Control-Request-Headers"))) <;>
      simp [hm, hh, getHeader_delHeader_ne _ n1, getHeader_delHeader_ne _ n2]

set_option maxHeartbeats 1000000 in
/-- C6: when a request reaches the origin checks (not a pre-flight, URL
parsed, not claimed by the hook, not the probe, port and host pass,
required headers present) and its origin is present in both the
blacklist and the whitelist, the handler answers the blacklist 403 —
the blacklist check runs before the whitelist check. -/
theorem claim_C6 (c : Config) (req : RequestModel) (loc : TargetURL)
    (h1 : req.method ≠ str ("OPTIONS"))
    (h2 : (match c.handleInitialRequest with
        | some f => f req (parseURL (List.drop 1 req.url))
        | none => false) = false)
    (hloc : parseURL (List.drop 1 req.url) = some loc)
    (h4 : loc.host ≠ str ("iscorsneeded"))
    (h5 : portTooLarge loc = false)
    (h6 : schemeSlashTest req.url = true ∨ isValidHostName loc.hostname = true)
    (h7 : hasRequiredHeaders c (withCORS [] req.method req.headers c.corsMaxAge).2 = true)
    (hb : ((getHeader req.headers (str ("origin"))).getD []) ∈ c.originBlacklist)
    (_hw : ((getHeader req.headers (str ("origin"))).getD []) ∈ c.originWhitelist) :
    getHandler c req = .response 403 (str ("Forbidden"))
      (withCORS [] req.method req.headers c.corsMaxAge).1
      (str ("The origin \x22") ++ ((getHeader req.headers (str ("origin"))).getD []) ++
        str ("\x22 was blacklisted by the operator of this proxy.")) := by
  have horig : getHeader (withCORS [] req.method req.headers c.corsMaxAge).2
      (str ("origin")) = getHeader req.headers (str ("origin")) :=
    getHeader_withCORS_snd_other _ _ _ _ (by decide) (by decide)
  simp only [getHandler, horig]
  rw [if_neg h1]
  rw [if_neg (by rw [h2]; simp)]
  simp only [hloc]
  rw [if_neg h4]
  rw [if_neg (by rw [h5]; simp)]
  rw [if_neg (by rcases h6 with h | h <;> simp [h])]
  rw [if_neg (by rw [h7]; simp)]
  rw [if_pos hb]

theorem claim_C6_witness :
    getHandler { defaultConfig with
        originBlacklist := [str ("http://evil.example")],
        originWhitelist := [str ("http://evil.example")] }
      ⟨str ("GET"), str ("/http://example.com/"),
        [(str ("origin"), str ("http://evil.example"))], false⟩ =
    .response 403 (str ("Forbidden"))
      (withCORS [] (str ("GET"))
        [(str ("origin"), str ("http://evil.example"))] 0).1
      (str ("The origin \x22") ++ str ("http://evil.example") ++
        str ("\x22 was blacklisted by the operator of this proxy.")) := by
  have h := claim_C6 { defaultConfig with
      originBlacklist := [str ("http://evil.example")],
      originWhitelist := [str ("http://evil.example")] }
    ⟨str ("GET"), str ("/http://example.com/"),
      [(str ("origin"), str ("http://evil.example"))], false⟩
    ⟨str ("http:"), none, str ("example.com"), none, str ("example.com"),
      [ '/' ], str ("http://example.com/")⟩
    (by decide) (by decide) (by decide) (by decide) (by decide)
    (Or.inl (by decide)) (by decide) (by decide) (by decide)
  exact h

set_option maxHeartbeats 1000000 in
/-- C10: when a request with no `Origin` header reaches the origin
checks, the origin is treated as the empty string: it is rejected by
the blacklist exactly when the blacklist contains the empty string,
rejected by a non-empty whitelist not containing the empty string, and
passes both origin checks (no 403 at all) when the whitelist contains
the empty string and the blacklist does not. -/
theorem claim_C10 (c : Config) (req : RequestModel) (loc : TargetURL)
    (h1 : req.method ≠ str ("OPTIONS"))
    (h2 : (match c.handleInitialRequest with
        | some f => f req (parseURL (List.drop 1 req.url))
        | none => false) = false)
    (hloc : parseURL (List.drop 1 req.url) = some loc)
    (h4 : loc.host ≠ str ("iscorsneeded"))
    (h5 : portTooLarge loc = false)
    (h6 : schemeSlashTest req.url = true ∨ isValidHostName loc.hostname = true)
    (h7 : hasRequiredHeaders c (withCORS [] req.method req.headers c.corsMaxAge).2 = true)
    (hno : getHeader req.headers (str ("origin")) = none) :
    (([] : Str) ∈ c.originBlacklist →
      getHandler c req = .response 403 (str ("Forbidden"))
        (withCORS [] req.method req.headers c.corsMaxAge).1
        (str ("The origin \x22") ++ [] ++
          str ("\x22 was blacklisted by the operator of this proxy."))) ∧
    (([] : Str) ∉ c.originBlacklist → c.originWhitelist ≠ [] →
      ([] : Str) ∉ c.originWhitelist →
      getHandler c req = .response 403 (str ("Forbidden"))
        (withCORS [] req.method req.headers c.corsMaxAge).1
        (str ("The origin \x22") ++ [] ++
          str ("\x22 was not whitelisted by the operator of this proxy."))) ∧
    (([] : Str) ∉ c.originBlacklist → ([] : Str) ∈ c.originWhitelist →
      ∀ stx hh b, getHandler c req ≠ .response 403 stx hh b) := by
  have horig : getHeader (withCORS [] req.method req.headers c.corsMaxAge).2
      (str ("origin")) = getHeader req.headers (str ("origin")) :=
    getHeader_withCORS_snd_other _ _ _ _ (by decide) (by decide)
  have hred : ∀ (r : HandlerResult),
      (if ([] : Str) ∈ c.originBlacklist then
        HandlerResult.response 403 (str ("Forbidden"))
          (withCORS [] req.method req.headers c.corsMaxAge).1
          (str ("The origin \x22") ++ [] ++
            str ("\x22 was blacklisted by the operator of this proxy."))
      else if c.originWhitelist ≠ [] ∧ ([] : Str) ∉ c.originWhitelist then
        HandlerResult.response 403 (str ("Forbidden"))
          (withCORS [] req.method req.headers c.corsMaxAge).1
          (str ("The origin \x22") ++ [] ++
            str ("\x22 was not whitelisted by the operator of this proxy."))
      else if (match c.checkRateLimit with
          | some f => f []
          | none => []) ≠ [] then
        HandlerResult.response 429 (str ("Too Many Requests"))
          (withCORS [] req.method req.headers c.corsMaxAge).1
          (str ("The origin \x22") ++ [] ++
            str ("\x22 has sent too many requests.\x0a") ++
            (match c.checkRateLimit with
             | some f => f []
             | none => []))
      else if c.redirectSameOrigin = true ∧ ([] : Str) ≠ [] ∧
          sameOriginHit [] loc.href = true then
        HandlerResult.response 301 (str ("Please use a direct request"))
          (setHeader (setHeader (setHeader
            (withCORS [] req.method req.headers c.corsMaxAge).1
            (str ("consty")) (str ("origin")))
            (str ("cache-control")) (str ("private")))
            (str ("location")) loc.href) []
      else
        HandlerResult.proxied req.method req.url
          (c.setHeaders.foldl (fun h kv => setHeader h kv.1 kv.2)
            (c.removeHeaders.foldl (fun h k => delHeader h k)
              (withCORS [] req.method req.headers c.corsMaxAge).2))
          loc
          ((if (req.encrypted ||
              xfpTest (withCORS [] req.method req.headers c.corsMaxAge).2) = true
            then str ("https://") else str ("http://")) ++
            ((getHeader (withCORS [] req.method req.headers c.corsMaxAge).2
              (str ("host"))).getD (str ("undefined"))))
          c.maxRedirects c.corsMaxAge) = r →
      getHandler c req = r := by
    intro r hr
    simp only [getHandler, horig, hno, Option.getD_none]
    rw [if_neg h1]
    rw [if_neg (by rw [h2]; simp)]
    simp only [hloc]
    rw [if_neg h4]
    rw [if_neg (by rw [h5]; simp)]
    rw [if_neg (by rcases h6 with h | h <;> simp [h])]
    rw [if_neg (by rw [h7]; simp)]
    exact hr
  refine ⟨?_, ?_, ?_⟩
  · intro ha
    exact hred _ (by rw [if_pos ha])
  · intro ha hw1 hw2
    exact hred _ (by rw [if_neg ha, if_pos ⟨hw1, hw2⟩])
  · intro ha hw stx hh b heq
    by_cases hrl : (match c.checkRateLimit with
        | some f => f ([] : Str)
        | none => []) ≠ []
    · have := hred _ (by
        rw [if_neg ha, if_neg (by simp [hw]), if_pos hrl])
      rw [this] at heq
      injection heq with hst _
      exact absurd hst (by decide)
    · have := hred _ (by
        rw [if_neg ha, if_neg (by simp [hw]), if_neg hrl,
          if_neg (by simp)])
      rw [this] at heq
      cases heq

theorem claim_C10_witness :
    getHandler { defaultConfig with originBlacklist := [[]] }
        ⟨str ("GET"), str ("/http://example.com/"), [], false⟩ =
      .response 403 (str ("Forbidden"))
        (withCORS [] (str ("GET")) [] 0).1
        (str ("The origin \x22") ++ [] ++
          str ("\x22 was blacklisted by the operator of this proxy.")) ∧
    getHandler { defaultConfig with originWhitelist := [str ("http://good.example")] }
        ⟨str ("GET"), str ("/http://example.com/"), [], false⟩ =
      .response 403 (str ("Forbidden"))
        (withCORS [] (str ("GET")) [] 0).1
        (str ("The origin \x22") ++ [] ++
          str ("\x22 was not whitelisted by the operator of this proxy.")) := by
  constructor
  · exact (claim_C10 { defaultConfig with originBlacklist := [[]] }
      ⟨str ("GET"), str ("/http://example.com/"), [], false⟩
      ⟨str ("http:"), none, str ("example.com"), none, str ("example.com"),
        [ '/' ], str ("http://example.com/")⟩
      (by decide) (by decide) (by decide) (by decide) (by decide)
      (Or.inl (by decide)) (by decide) (by decide)).1 (by decide)
  · exact (claim_C10 { defaultConfig with
        originWhitelist := [str ("http://good.example")] }
      ⟨str ("GET"), str ("/http://example.com/"), [], false⟩
      ⟨str ("http:"), none, str ("example.com"), none, str ("example.com"),
        [ '/' ], str ("http://example.com/")⟩
      (by decide) (by decide) (by decide) (by decide) (by decide)
      (Or.inl (by decide)) (by decide) (by decide)).2.1
      (by decide) (by decide) (by decide)

/-- A single 302 upstream redirect response carrying the given
location. -/
def redirResp (l0 : Str) : ProxyResponse :=
  ⟨302, [(str ("location"), l0)]⟩

/-- The exchange state at the start of a client-facing exchange (fresh
request state with redirect count 0, no staged response headers). -/
def initExchange (method url0 : Str) (reqH : Headers) (loc0 : TargetURL)
    (B : Str) (M maxAge : Nat) : Exchange :=
  ⟨method, url0, reqH, ⟨loc0, B, M, 0, maxAge⟩, []⟩

theorem runExchange_cons_relay {e : Exchange} {pr : ProxyResponse}
    {e1 : Exchange} {pr1 : ProxyResponse}
    (h : onProxyResponse e pr = relayFinish e1 pr1) (rest : List ProxyResponse) :
    runExchange e (pr :: rest) =
      some ((relayFinish e1 pr1).1, (relayFinish e1 pr1).2.1) := by
  simp only [runExchange, h]
  rfl

theorem runExchange_cons_follow {e : Exchange} {pr : ProxyResponse} {e2 : Exchange}
    (h : onProxyResponse e pr = (e2, pr, false)) (rest : List ProxyResponse) :
    runExchange e (pr :: rest) = runExchange e2 rest := by
  simp only [runExchange, h]
  rfl

theorem range_key_split (n : Nat) (val : Str) :
    (List.range (n + 1)).map (fun i => (redirKey (i + 1), val)) =
      (redirKey 1, val) ::
        (List.range n).map (fun i => (redirKey (1 + 1 + i), val)) := by
  rw [List.range_succ_eq_map, List.map_cons, List.map_map]
  congr 1
  apply List.map_congr_left
  intro a _
  simp only [Function.comp_apply, Nat.succ_eq_add_one]
  have h2 : a + 1 + 1 = 1 + 1 + a := by omega
  rw [h2]

set_option maxHeartbeats 2000000 in
/-- C2: for an upstream that answers with 302 (same absolute, parsable
location) N times before returning 200, the client-facing exchange
delivers exactly one final response.  When N is within the configured
`maxRedirects` budget it is the 200, and the headers staged on the
client response are exactly `x-request-url` followed by
`X-CORS-Redirect-1` … `X-CORS-Redirect-N`.  When N exceeds the budget
the exchange instead relays the last redirect it follows up to —
hop `maxRedirects + 1` — with its `Location` rewritten to
`proxyBaseUrl + '/' + absoluteLocation`, and the staged debug headers
stop at `X-CORS-Redirect-maxRedirects`. -/
theorem claim_C2 (N M : Nat) (l0 : Str) (u loc0 : TargetURL)
    (B method url0 : Str) (reqH : Headers) (maxAge : Nat) (ok : ProxyResponse)
    (habs : (ciHasPre (str ("http://")) l0 || ciHasPre (str ("https://")) l0) = true)
    (hparse : parseURL l0 = some u)
    (hok : ok.statusCode = 200) :
    (N ≤ M →
      ∃ eF prF,
        runExchange (initExchange method url0 reqH loc0 B M maxAge)
            (List.replicate N (redirResp l0) ++ [ok]) = some (eF, prF) ∧
        prF.statusCode = 200 ∧
        eF.resHeaders = (str ("x-request-url"), loc0.href) ::
          (List.range N).map (fun i => (redirKey (i + 1),
            natDigits 302 ++ [ ' ' ] ++ l0))) ∧
    (M < N →
      ∃ eF prF,
        runExchange (initExchange method url0 reqH loc0 B M maxAge)
            (List.replicate N (redirResp l0) ++ [ok]) = some (eF, prF) ∧
        prF.statusCode = 302 ∧
        getHeader prF.headers (str ("location")) = some (B ++ [ '/' ] ++ l0) ∧
        eF.resHeaders = (str ("x-request-url"), loc0.href) ::
          (List.range M).map (fun i => (redirKey (i + 1),
            natDigits 302 ++ [ ' ' ] ++ l0))) := by
  have hloc : truthy (getHeader (redirResp l0).headers (str ("location"))) = some l0 := by
    simp [redirResp, getHeader, truthy, absolute_ne_nil habs]
  have hokn : ¬ (ok.statusCode = 301 ∨ ok.statusCode = 302 ∨ ok.statusCode = 303 ∨
      ok.statusCode = 307 ∨ ok.statusCode = 308) := by
    rw [hok]; decide
  have h302 : (redirResp l0).statusCode = 301 ∨ (redirResp l0).statusCode = 302 ∨
      (redirResp l0).statusCode = 303 := Or.inr (Or.inl rfl)
  constructor
  · -- within budget
    intro hNM
    cases N with
    | zero =>
      have hstep := onProxyResponse_not_redirect
        (initExchange method url0 reqH loc0 B M maxAge) ok hokn
      rw [List.replicate_zero, List.nil_append, runExchange_cons_relay hstep]
      refine ⟨_, _, rfl, ?_, ?_⟩
      · rw [relayFinish_statusCode]; exact hok
      · rw [relayFinish_resHeaders]
        simp [xruUpdate, initExchange, setHeader]
    | succ n =>
      have hstep1 : onProxyResponse (initExchange method url0 reqH loc0 B M maxAge)
          (redirResp l0) =
          (followUpdate (xruUpdate (initExchange method url0 reqH loc0 B M maxAge))
            u l0 302, redirResp l0, false) :=
        onProxyResponse_follow _ _ h302 hloc (urlResolve_absolute _ habs) hparse
          (by show 0 + 1 ≤ M; omega)
      rw [List.replicate_succ, List.cons_append, runExchange_cons_follow hstep1]
      have he1c : (followUpdate (xruUpdate (initExchange method url0 reqH loc0 B M maxAge))
          u l0 302).state.redirectCount_ = 1 := rfl
      have he1m : (followUpdate (xruUpdate (initExchange method url0 reqH loc0 B M maxAge))
          u l0 302).state.maxRedirects = M := rfl
      have he1r : (followUpdate (xruUpdate (initExchange method url0 reqH loc0 B M maxAge))
          u l0 302).resHeaders =
          [(str ("x-request-url"), loc0.href),
           (redirKey 1, natDigits 302 ++ [ ' ' ] ++ l0)] := rfl
      have hchain : runExchange
          (followUpdate (xruUpdate (initExchange method url0 reqH loc0 B M maxAge)) u l0 302)
          (List.replicate n (redirResp l0) ++ [ok]) =
          runExchange (followN l0 u n (followUpdate
            (xruUpdate (initExchange method url0 reqH loc0 B M maxAge)) u l0 302)) [ok] :=
        runExchange_chain l0 u habs hparse n
          (followUpdate (xruUpdate (initExchange method url0 reqH loc0 B M maxAge)) u l0 302)
          [ok] (by rw [he1c]; omega) (by rw [he1c, he1m]; omega)
      rw [hchain]
      have hfrc : (followN l0 u n (followUpdate
          (xruUpdate (initExchange method url0 reqH loc0 B M maxAge)) u l0 302)).state.redirectCount_ =
          1 + n := by rw [followN_count, he1c]
      have hfin := onProxyResponse_not_redirect (followN l0 u n (followUpdate
        (xruUpdate (initExchange method url0 reqH loc0 B M maxAge)) u l0 302)) ok hokn
      rw [xruUpdate_id (e := followN l0 u n (followUpdate
        (xruUpdate (initExchange method url0 reqH loc0 B M maxAge)) u l0 302))
        (by rw [hfrc]; omega)] at hfin
      rw [runExchange_cons_relay hfin]
      refine ⟨_, _, rfl, ?_, ?_⟩
      · rw [relayFinish_statusCode]; exact hok
      · rw [relayFinish_resHeaders]
        have hfresh : ∀ j, (followUpdate
            (xruUpdate (initExchange method url0 reqH loc0 B M maxAge))
            u l0 302).state.redirectCount_ < j →
            getHeader (followUpdate
              (xruUpdate (initExchange method url0 reqH loc0 B M maxAge))
              u l0 302).resHeaders (redirKey j) = none := by
          intro j hj
          rw [he1c] at hj
          rw [he1r]
          have hn1 : ¬ (str ("x-request-url")) = redirKey j :=
            fun hh => redirKey_ne_xru j hh.symm
          have hn2 : ¬ (redirKey 1) = redirKey j := by
            intro hh
            have := redirKey_inj hh
            omega
          simp [getHeader, hn1, hn2]
        rw [followN_resHeaders l0 u n _ hfresh, he1r, he1c, range_key_split]
        rfl
  · -- budget exhausted
    intro hMN
    cases M with
    | zero =>
      obtain ⟨n, rfl⟩ : ∃ n, N = n + 1 := ⟨N - 1, by omega⟩
      have hover : onProxyResponse (initExchange method url0 reqH loc0 B 0 maxAge)
          (redirResp l0) =
          relayFinish
            { xruUpdate (initExchange method url0 reqH loc0 B 0 maxAge) with
              state := { (initExchange method url0 reqH loc0 B 0 maxAge).state with
                redirectCount_ :=
                  (initExchange method url0 reqH loc0 B 0 maxAge).state.redirectCount_ + 1 } }
            { redirResp l0 with
              headers := (setHeader (redirResp l0).headers (str ("location"))
                ((initExchange method url0 reqH loc0 B 0 maxAge).state.proxyBaseUrl ++
                  [ '/' ] ++ l0)) } :=
        onProxyResponse_over_max _ _ h302 hloc (urlResolve_absolute _ habs) hparse
          (by show ¬ (0 + 1 ≤ 0); omega)
      rw [List.replicate_succ, List.cons_append, runExchange_cons_relay hover]
      refine ⟨_, _, rfl, ?_, ?_, ?_⟩
      · rw [relayFinish_statusCode]
        rfl
      · rw [relayFinish_other _ _ (by decide) (by decide) (by decide) (by decide)
          (by decide) (by decide) (by decide) (by decide)]
        exact getHeader_setHeader_self _ _ _
      · rw [relayFinish_resHeaders]
        simp [xruUpdate, initExchange, setHeader]
    | succ m =>
      obtain ⟨k, rfl⟩ : ∃ k, N = m + 2 + k := ⟨N - (m + 2), by omega⟩
      have hsplit : List.replicate (m + 2 + k) (redirResp l0) ++ [ok] =
          redirResp l0 :: (List.replicate m (redirResp l0) ++
            (redirResp l0 :: (List.replicate k (redirResp l0) ++ [ok]))) := by
        have harith : m + 2 + k = 1 + (m + (1 + k)) := by omega
        rw [harith, List.replicate_add, List.replicate_add, List.replicate_add,
          List.replicate_one]
        simp
      rw [hsplit]
      have hstep1 : onProxyResponse (initExchange method url0 reqH loc0 B (m + 1) maxAge)
          (redirResp l0) =
          (followUpdate (xruUpdate (initExchange method url0 reqH loc0 B (m + 1) maxAge))
            u l0 302, redirResp l0, false) :=
        onProxyResponse_follow _ _ h302 hloc (urlResolve_absolute _ habs) hparse
          (by show 0 + 1 ≤ m + 1; omega)
      rw [runExchange_cons_follow hstep1]
      have he1c : (followUpdate (xruUpdate (initExchange method url0 reqH loc0 B (m + 1) maxAge))
          u l0 302).state.redirectCount_ = 1 := rfl
      have he1m : (followUpdate (xruUpdate (initExchange method url0 reqH loc0 B (m + 1) maxAge))
          u l0 302).state.maxRedirects = m + 1 := rfl
      have he1r : (followUpdate (xruUpdate (initExchange method url0 reqH loc0 B (m + 1) maxAge))
          u l0 302).resHeaders =
          [(str ("x-request-url"), loc0.href),
           (redirKey 1, natDigits 302 ++ [ ' ' ] ++ l0)] := rfl
      have hchain : runExchange
          (followUpdate (xruUpdate (initExchange method url0 reqH loc0 B (m + 1) maxAge)) u l0 302)
          (List.replicate m (redirResp l0) ++
            (redirResp l0 :: (List.replicate k (redirResp l0) ++ [ok]))) =
          runExchange (followN l0 u m (followUpdate
            (xruUpdate (initExchange method url0 reqH loc0 B (m + 1) maxAge)) u l0 302))
            (redirResp l0 :: (List.replicate k (redirResp l0) ++ [ok])) :=
        runExchange_chain l0 u habs hparse m
          (followUpdate (xruUpdate (initExchange method url0 reqH loc0 B (m + 1) maxAge)) u l0 302)
          (redirResp l0 :: (List.replicate k (redirResp l0) ++ [ok]))
          (by rw [he1c]; omega) (by rw [he1c, he1m]; omega)
      rw [hchain]
      have hE2c : (followN l0 u m (followUpdate
          (xruUpdate (initExchange method url0 reqH loc0 B (m + 1) maxAge)) u l0 302)).state.redirectCount_ =
          1 + m := by rw [followN_count, he1c]
      have hE2m : (followN l0 u m (followUpdate
          (xruUpdate (initExchange method url0 reqH loc0 B (m + 1) maxAge)) u l0 302)).state.maxRedirects =
          m + 1 := by rw [followN_maxRedirects, he1m]
      have hE2b : (followN l0 u m (followUpdate
          (xruUpdate (initExchange method url0 reqH loc0 B (m + 1) maxAge)) u l0 302)).state.proxyBaseUrl =
          B := by rw [followN_proxyBaseUrl]; rfl
      have hover := onProxyResponse_over_max (followN l0 u m (followUpdate
          (xruUpdate (initExchange method url0 reqH loc0 B (m + 1) maxAge)) u l0 302))
        (redirResp l0) h302 hloc (urlResolve_absolute _ habs) hparse
        (by rw [hE2c, hE2m]; omega)
      rw [xruUpdate_id (e := followN l0 u m (followUpdate
        (xruUpdate (initExchange method url0 reqH loc0 B (m + 1) maxAge)) u l0 302))
        (by rw [hE2c]; omega)] at hover
      rw [runExchange_cons_relay hover]
      refine ⟨_, _, rfl, ?_, ?_, ?_⟩
      · rw [relayFinish_statusCode]
        rfl
      · rw [relayFinish_other _ _ (by decide) (by decide) (by decide) (by decide)
          (by decide) (by decide) (by decide) (by decide),
          getHeader_setHeader_self, hE2b]
      · rw [relayFinish_resHeaders]
        show (followN l0 u m (followUpdate
          (xruUpdate (initExchange method url0 reqH loc0 B (m + 1) maxAge)) u l0 302)).resHeaders = _
        have hfresh : ∀ j, (followUpdate
            (xruUpdate (initExchange method url0 reqH loc0 B (m + 1) maxAge))
            u l0 302).state.redirectCount_ < j →
            getHeader (followUpdate
              (xruUpdate (initExchange method url0 reqH loc0 B (m + 1) maxAge))
              u l0 302).resHeaders (redirKey j) = none := by
          intro j hj
          rw [he1c] at hj
          rw [he1r]
          have hn1 : ¬ (str ("x-request-url")) = redirKey j :=
            fun hh => redirKey_ne_xru j hh.symm
          have hn2 : ¬ (redirKey 1) = redirKey j := by
            intro hh
            have := redirKey_inj hh
            omega
          simp [getHeader, hn1, hn2]
        rw [followN_resHeaders l0 u m _ hfresh, he1r, he1c, range_key_split]
        rfl

theorem claim_C2_witness :
    (∃ eF prF,
        runExchange (initExchange (str ("POST")) (str ("/s")) []
            ⟨str ("http:"), none, str ("a.example.com"), none, str ("a.example.com"),
              str ("/s"), str ("http://a.example.com/s")⟩
            (str ("http://proxy.test")) 5 0)
          (List.replicate 2 (redirResp (str ("http://b.example.com/r"))) ++
            [⟨200, []⟩]) = some (eF, prF) ∧
        prF.statusCode = 200 ∧
        eF.resHeaders = (str ("x-request-url"), (⟨str ("http:"), none,
            str ("a.example.com"), none, str ("a.example.com"), str ("/s"),
            str ("http://a.example.com/s")⟩ : TargetURL).href) ::
          (List.range 2).map (fun i => (redirKey (i + 1),
            natDigits 302 ++ [ ' ' ] ++ str ("http://b.example.com/r")))) ∧
    (∃ eF prF,
        runExchange (initExchange (str ("POST")) (str ("/s")) []
            ⟨str ("http:"), none, str ("a.example.com"), none, str ("a.example.com"),
              str ("/s"), str ("http://a.example.com/s")⟩
            (str ("http://proxy.test")) 1 0)
          (List.replicate 3 (redirResp (str ("http://b.example.com/r"))) ++
            [⟨200, []⟩]) = some (eF, prF) ∧
        prF.statusCode = 302 ∧
        getHeader prF.headers (str ("location")) =
          some (str ("http://proxy.test") ++ [ '/' ] ++ str ("http://b.example.com/r")) ∧
        eF.resHeaders = (str ("x-request-url"), (⟨str ("http:"), none,
            str ("a.example.com"), none, str ("a.example.com"), str ("/s"),
            str ("http://a.example.com/s")⟩ : TargetURL).href) ::
          (List.range 1).map (fun i => (redirKey (i + 1),
            natDigits 302 ++ [ ' ' ] ++ str ("http://b.example.com/r")))) := by
  constructor
  · exact (claim_C2 2 5 (str ("http://b.example.com/r"))
      ⟨str ("http:"), none, str ("b.example.com"), none, str ("b.example.com"),
        str ("/r"), str ("http://b.example.com/r")⟩
      ⟨str ("http:"), none, str ("a.example.com"), none, str ("a.example.com"),
        str ("/s"), str ("http://a.example.com/s")⟩
      (str ("http://proxy.test")) (str ("POST")) (str ("/s")) [] 0 ⟨200, []⟩
      (by decide) (by decide) rfl).1 (by omega)
  · exact (claim_C2 3 1 (str ("http://b.example.com/r"))
      ⟨str ("http:"), none, str ("b.example.com"), none, str ("b.example.com"),
        str ("/r"), str ("http://b.example.com/r")⟩
      ⟨str ("http:"), none, str ("a.example.com"), none, str ("a.example.com"),
        str ("/s"), str ("http://a.example.com/s")⟩
      (str ("http://proxy.test")) (str ("POST")) (str ("/s")) [] 0 ⟨200, []⟩
      (by decide) (by decide) rfl).2 (by omega)


end CorsAnywhere
